import Mathlib

/-!
Verification of the `feel` declarative HTTP endpoint-binding engine.

The Go sources are shallowly embedded: Go strings become `List Char`,
Go slices/maps that matter for builder cloning carry an explicit
identity tag, fallible Go operations return `Except`, run-time panics
(nil-map assignment, out-of-range indexing, nil function calls, the
`reflect` zero-`Value` panic) are modelled with an explicit `GoPanic`
error channel, and the HTTP response writer is modelled as a trace of
write events.  User-supplied collaborators (codecs, error mappers,
handler bodies, user path converters) are opaque function parameters,
exactly as the engine consumes them.
-/

/-- Decidable equality for `Except`, used to evaluate the embedded code
on concrete inputs in witnesses. -/
instance {e a : Type} [DecidableEq e] [DecidableEq a] : DecidableEq (Except e a) :=
  fun x y =>
    match x, y with
    | Except.ok v, Except.ok v' =>
        match decEq v v' with
        | isTrue h => isTrue (by rw [h])
        | isFalse h => isFalse (by intro hc; cases hc; exact h rfl)
    | Except.error p, Except.error p' =>
        match decEq p p' with
        | isTrue h => isTrue (by rw [h])
        | isFalse h => isFalse (by intro hc; cases hc; exact h rfl)
    | Except.ok _, Except.error _ => isFalse (by intro hc; cases hc)
    | Except.error _, Except.ok _ => isFalse (by intro hc; cases hc)

/-- Go strings, viewed as their character sequence. -/
abbrev Str := List Char

/-- Byte image of a Go string (ASCII payloads in all inputs we use). -/
def strBytes (s : Str) : List Nat := s.map Char.toNat

/-- The `reflect.Kind` of a Go type, restricted to the kinds the engine
inspects. -/
inductive GoKind where
  | string | bool
  | int | int8 | int16 | int32 | int64
  | uint | uint8 | uint16 | uint32 | uint64
  | slice | array | map | ptr | struct | func | interface | chan
deriving DecidableEq

/-- A Go type descriptor: enough of `reflect.Type` for the classification
and converter-selection switches of `builder.go`.  `name` gives type
identity (Go compares sentinel types with `==`), `kind` is the underlying
kind, `elemKind` is the element kind for slices/arrays, and the two
capability flags model `Implements(PathParameterConverterType)` and
`Implements(errorType)`. -/
structure GoType where
  name : String
  kind : GoKind
  elemKind : Option GoKind := none
  arrayLen : Nat := 0
  implsPathConverter : Bool := false
  implsError : Bool := false
deriving DecidableEq

/-- Sentinel `http.Header` type (`variables.go`). -/
def headersType : GoType := { name := "http.Header", kind := GoKind.map }

/-- Sentinel `url.Values` type (`variables.go`). -/
def urlQueryType : GoType := { name := "url.Values", kind := GoKind.map }

/-- Sentinel `[]*http.Cookie` type (`variables.go`). -/
def cookiesType : GoType :=
  { name := "cookieSlice", kind := GoKind.slice, elemKind := some GoKind.ptr }

/-- Sentinel `int` type of `http.StatusOK` (`variables.go`). -/
def httpStatusType : GoType := { name := "int", kind := GoKind.int }

/-- Go `error` values as the engine builds them (`errors.go`): either an
`errors.New` leaf, or the `Error{GeneralCause, ContextCause}` wrapper.
Both wrapper fields are always non-nil in the constructors the engine
uses (`UnsupportedTypeError`, `InvalidMappingError`), so the nil cases of
the source's `Error()` method are not represented. -/
inductive GoErr where
  | newErr (msg : String)
  | wrapErr (generalCause : GoErr) (contextCause : GoErr)
deriving DecidableEq

/-- `UnsupportedType` sentinel cause (`errors.go`). -/
def UnsupportedType : GoErr := GoErr.newErr "unsupported type"

/-- `InvalidMapping` sentinel cause (`errors.go`). -/
def InvalidMapping : GoErr := GoErr.newErr "invalid mapping"

/-- `UnsupportedTypeError` constructor (`errors.go`). -/
def UnsupportedTypeError (contextCause : GoErr) : GoErr :=
  GoErr.wrapErr UnsupportedType contextCause

/-- `InvalidMappingError` constructor (`errors.go`). -/
def InvalidMappingError (contextCause : GoErr) : GoErr :=
  GoErr.wrapErr InvalidMapping contextCause

/-- The `Error()` rendering of an engine error (`errors.go`), for the
populated-fields shape the engine produces. -/
def GoErr.errorString : GoErr → String
  | GoErr.newErr m => m
  | GoErr.wrapErr g c => g.errorString ++ ":" ++ c.errorString

/-- Does this error carry the `InvalidMapping` general cause? -/
def GoErr.isInvalidMappingErr : GoErr → Bool
  | GoErr.wrapErr g _ => g == InvalidMapping
  | _ => false

/-- Does this error carry the `UnsupportedType` general cause? -/
def GoErr.isUnsupportedTypeErr : GoErr → Bool
  | GoErr.wrapErr g _ => g == UnsupportedType
  | _ => false

/-- Go run-time panics reachable in the embedded code paths. -/
inductive GoPanic where
  | zeroValueHasNoType
  | nilMapAssignment
  | indexOutOfRange
  | sliceBounds
  | nilFunctionCall
  | typeAssertionFailed
  | reflectKindMismatch
deriving DecidableEq

/-- An HTTP cookie, restricted to the fields the engine touches. -/
structure Cookie where
  name : Str
  value : Str
deriving DecidableEq

/-- A header map rendered as an association list; Go map iteration order
is unspecified, the list order stands in for one iteration order. -/
abbrev HeaderAList := List (Str × List Str)

/-- The slice of an incoming HTTP request the engine reads. -/
structure Request where
  urlPath : Str
  query : List (Str × List Str)
  headers : HeaderAList
  cookies : List Cookie
  body : Option (List Nat)

/-- One effect on the `http.ResponseWriter`. -/
inductive WEvent where
  | setHeader (name : Str) (value : Str)
  | addHeader (name : Str) (value : Str)
  | writeHeader (code : Int)
  | write (bs : List Nat)
deriving DecidableEq

/-- The response writer, modelled as the chronological trace of effects. -/
abbrev RespWriter := List WEvent

/-- Dynamic Go values flowing between providers, the handler and the
response resolvers.  `Option` payloads model nil-able Go values. -/
inductive GoValue where
  | str (s : Str)
  | intV (n : Int)
  | uintV (n : Nat)
  | boolV (b : Bool)
  | bytesV (bs : List Nat)
  | headerV (h : Option HeaderAList)
  | queryV (q : List (Str × List Str))
  | cookiesV (cs : Option (List Cookie))
  | errV (e : Option GoErr)
  | ptrV (inner : Option Unit)
  | structV (typeName : String)
deriving DecidableEq

/-- `reflect.New(t).Elem()`: the zero value of a type. -/
def zeroValue (t : GoType) : GoValue :=
  match t.kind with
  | GoKind.string => GoValue.str []
  | GoKind.bool => GoValue.boolV false
  | GoKind.int | GoKind.int8 | GoKind.int16 | GoKind.int32 | GoKind.int64 =>
      GoValue.intV 0
  | GoKind.uint | GoKind.uint8 | GoKind.uint16 | GoKind.uint32 | GoKind.uint64 =>
      GoValue.uintV 0
  | GoKind.slice => GoValue.bytesV []
  | GoKind.ptr => GoValue.ptrV none
  | GoKind.interface => GoValue.errV none
  | _ => GoValue.structV t.name

/-- A `Decoder` (part_000) as the engine consumes it: it receives the body
bytes and the target type and yields the populated value plus an error. -/
abbrev DecoderFn := List Nat → GoType → GoValue × Option GoErr

/-- An `Encoder` (part_000) as the engine consumes it: it receives the
value to serialise and yields the byte chunks it writes plus an error. -/
abbrev EncoderFn := GoValue → List (List Nat) × Option GoErr

/-- An `ErrorMapper` (part_000): `(error, response writer, request) → error`. -/
abbrev ErrorMapperFn := GoErr → RespWriter → Request → RespWriter × Option GoErr

/-- An `Interceptor` (part_000); declared but inert in this revision. -/
abbrev InterceptorFn := RespWriter → Request → Bool

/-- The `Convert` methods of user types implementing
`PathParameterConverter`, indexed by the type (the engine instantiates a
zero value of the type and calls `Convert`, so the behaviour is a
function of the type alone). -/
abbrev UserConverters := GoType → Str → Except GoErr GoValue

/-- A handler function value: its `reflect` signature plus its behaviour. -/
structure GoFunc where
  ins : List GoType
  outs : List GoType
  impl : List GoValue → List GoValue

/-! ## Path template scanning (`builder.go`, `pathValueSegmentOffsets` /
`pathValuesByOffsets`) -/

/-- The parameter sentinel `/:` (`pathTemplateStart`). -/
def pathTemplateStart : Str := ("/:".toList)

/-- The segment terminator `/` (`pathTemplateEnd`). -/
def pathTemplateEnd : Str := ("/".toList)

/-- Does `sub` start `s`? (the prefix test underlying `strings.Index`). -/
def strStarts : Str → Str → Bool
  | [], _ => true
  | _ :: _, [] => false
  | a :: as, b :: bs => a == b && strStarts as bs

/-- `strings.Index s sub`: position of the first occurrence of `sub` in
`s`, `none` for Go's `-1`. -/
def goIndex : Str → Str → Option Nat
  | [], sub => if sub.isEmpty then some 0 else none
  | c :: t, sub =>
      if strStarts sub (c :: t) then some 0
      else (goIndex t sub).map (fun i => i + 1)

theorem strStarts_length {sub s : Str} (h : strStarts sub s = true) :
    sub.length ≤ s.length := by
  induction sub generalizing s with
  | nil => exact Nat.zero_le _
  | cons a as ih =>
      cases s with
      | nil => simp [strStarts] at h
      | cons b bs =>
          simp only [strStarts, Bool.and_eq_true] at h
          simpa [List.length_cons, Nat.succ_le_succ_iff] using ih h.2

theorem strStarts_append {sub t : Str} : strStarts sub (sub ++ t) = true := by
  induction sub with
  | nil => rfl
  | cons a as ih => simp [strStarts, ih]

theorem strStarts_iff_append {sub s : Str} :
    strStarts sub s = true ↔ ∃ t, s = sub ++ t := by
  constructor
  · intro h
    induction sub generalizing s with
    | nil => exact ⟨s, rfl⟩
    | cons a as ih =>
        cases s with
        | nil => simp [strStarts] at h
        | cons b bs =>
            simp only [strStarts, Bool.and_eq_true, beq_iff_eq] at h
            obtain ⟨t, ht⟩ := ih h.2
            exact ⟨t, by simp [h.1, ht]⟩
  · rintro ⟨t, rfl⟩
    exact strStarts_append

theorem goIndex_bound {s sub : Str} {i : Nat} (h : goIndex s sub = some i) :
    i + sub.length ≤ s.length := by
  induction s generalizing i with
  | nil =>
      by_cases hs : sub.isEmpty
      · simp [goIndex, hs] at h
        subst h
        simpa [List.isEmpty_iff] using hs
      · simp [goIndex, hs] at h
  | cons c t ih =>
      by_cases hp : strStarts sub (c :: t)
      · simp [goIndex, hp] at h
        subst h
        simpa using strStarts_length hp
      · simp [goIndex, hp] at h
        obtain ⟨j, hj, rfl⟩ := h
        have := ih hj
        simp only [List.length_cons]
        omega

theorem goIndex_starts {s sub : Str} {i : Nat} (h : goIndex s sub = some i) :
    strStarts sub (s.drop i) = true := by
  induction s generalizing i with
  | nil =>
      by_cases hs : sub.isEmpty
      · simp [goIndex, hs] at h
        subst h
        cases sub with
        | nil => rfl
        | cons a as => simp [List.isEmpty] at hs
      · simp [goIndex, hs] at h
  | cons c t ih =>
      by_cases hp : strStarts sub (c :: t)
      · simp [goIndex, hp] at h
        subst h
        simpa using hp
      · simp [goIndex, hp] at h
        obtain ⟨j, hj, rfl⟩ := h
        simpa using ih hj

theorem goIndex_min {s sub : Str} {i : Nat} (h : goIndex s sub = some i) :
    ∀ j, j < i → strStarts sub (s.drop j) = false := by
  induction s generalizing i with
  | nil =>
      intro j hj
      by_cases hs : sub.isEmpty
      · simp [goIndex, hs] at h
        omega
      · simp [goIndex, hs] at h
  | cons c t ih =>
      intro j hj
      by_cases hp : strStarts sub (c :: t)
      · simp [goIndex, hp] at h
        omega
      · simp [goIndex, hp] at h
        obtain ⟨k, hk, rfl⟩ := h
        cases j with
        | zero => simpa using eq_false_of_ne_true hp
        | succ j' => simpa using ih hk j' (by omega)

theorem goIndex_none {s sub : Str} (h : goIndex s sub = none) :
    ∀ j, strStarts sub (s.drop j) = false := by
  induction s with
  | nil =>
      intro j
      by_cases hs : sub.isEmpty
      · simp [goIndex, hs] at h
      · cases sub with
        | nil => simp [List.isEmpty] at hs
        | cons a as => simp [strStarts]
  | cons c t ih =>
      intro j
      by_cases hp : strStarts sub (c :: t)
      · simp [goIndex, hp] at h
      · simp [goIndex, hp, Option.map_eq_none'] at h
        cases j with
        | zero => simpa using eq_false_of_ne_true hp
        | succ j' => simpa using ih h j'

theorem pathTemplateStart_length : pathTemplateStart.length = 2 := rfl

theorem pathTemplateEnd_length : pathTemplateEnd.length = 1 := rfl

/-- `strings.Count s pathTemplateStart` specialised to the `/:` sentinel
(the only use in `newBuilder`), fuel-indexed so that it stays
kernel-computable; `countPathSentinel` supplies sufficient fuel. -/
def countGo : Nat → Str → Nat
  | 0, _ => 0
  | fuel + 1, s =>
      match goIndex s pathTemplateStart with
      | none => 0
      | some i => 1 + countGo fuel (s.drop (i + 2))

/-- `strings.Count urlPathTemplate pathTemplateStart` (`newBuilder`). -/
def countPathSentinel (s : Str) : Nat := countGo (s.length + 1) s

theorem countGo_congr :
    ∀ f1 f2 s, s.length < f1 → s.length < f2 → countGo f1 s = countGo f2 s := by
  intro f1
  induction f1 with
  | zero => intro f2 s h1; omega
  | succ f ih =>
      intro f2 s h1 h2
      cases f2 with
      | zero => omega
      | succ f2' =>
          simp only [countGo]
          cases hg : goIndex s pathTemplateStart with
          | none => rfl
          | some i =>
              have hb := goIndex_bound hg
              rw [pathTemplateStart_length] at hb
              have hlen : (s.drop (i + 2)).length = s.length - (i + 2) := by
                simp [List.length_drop]
              show 1 + countGo f (s.drop (i + 2)) = 1 + countGo f2' (s.drop (i + 2))
              rw [ih f2' (s.drop (i + 2)) (by omega) (by omega)]

theorem countPathSentinel_eq (s : Str) :
    countPathSentinel s =
      match goIndex s pathTemplateStart with
      | none => 0
      | some i => 1 + countPathSentinel (s.drop (i + 2)) := by
  show countGo (s.length + 1) s = _
  simp only [countGo]
  cases hg : goIndex s pathTemplateStart with
  | none => rfl
  | some i =>
      have hb := goIndex_bound hg
      rw [pathTemplateStart_length] at hb
      have hlen : (s.drop (i + 2)).length = s.length - (i + 2) := by
        simp [List.length_drop]
      show 1 + countGo (s.length) (s.drop (i + 2))
          = 1 + countPathSentinel (s.drop (i + 2))
      simp only [countPathSentinel]
      rw [countGo_congr (s.length) ((s.drop (i + 2)).length + 1)
        (s.drop (i + 2)) (by omega) (by omega)]

/-- The scanning loop of `pathValueSegmentOffsets` (`builder.go` lines
43-61), fuel-indexed.  Offsets are relative: each recorded offset is the
distance from the previous segment boundary (`from`) to one past the
`/` that starts the parameter segment. -/
def offsetsGo : Nat → Str → List Nat
  | 0, _ => []
  | fuel + 1, s =>
      match goIndex s pathTemplateStart with
      | none => []
      | some dirtyOffset =>
          let offset := dirtyOffset + 1
          match goIndex (s.drop offset) pathTemplateEnd with
          | none => [offset]
          | some dirtyOffsetEnd =>
              offset :: offsetsGo fuel ((s.drop offset).drop dirtyOffsetEnd)

/-- `pathValueSegmentOffsets` (`builder.go`). -/
def pathValueSegmentOffsets (requestURI : Str) : List Nat :=
  offsetsGo (requestURI.length + 1) requestURI

theorem offsetsGo_congr :
    ∀ f1 f2 s, s.length < f1 → s.length < f2 → offsetsGo f1 s = offsetsGo f2 s := by
  intro f1
  induction f1 with
  | zero => intro f2 s h1; omega
  | succ f ih =>
      intro f2 s h1 h2
      cases f2 with
      | zero => omega
      | succ f2' =>
          simp only [offsetsGo]
          cases hg : goIndex s pathTemplateStart with
          | none => rfl
          | some d =>
              have hb := goIndex_bound hg
              rw [pathTemplateStart_length] at hb
              show (match goIndex (s.drop (d + 1)) pathTemplateEnd with
                    | none => [d + 1]
                    | some e => (d + 1) :: offsetsGo f ((s.drop (d + 1)).drop e))
                  = (match goIndex (s.drop (d + 1)) pathTemplateEnd with
                    | none => [d + 1]
                    | some e => (d + 1) :: offsetsGo f2' ((s.drop (d + 1)).drop e))
              cases he : goIndex (s.drop (d + 1)) pathTemplateEnd with
              | none => rfl
              | some e =>
                  have hlen1 : (s.drop (d + 1)).length = s.length - (d + 1) := by
                    simp [List.length_drop]
                  have hlen2 : ((s.drop (d + 1)).drop e).length
                      = (s.drop (d + 1)).length - e := by
                    simp only [List.length_drop]
                  show (d + 1) :: offsetsGo f ((s.drop (d + 1)).drop e)
                      = (d + 1) :: offsetsGo f2' ((s.drop (d + 1)).drop e)
                  rw [ih f2' ((s.drop (d + 1)).drop e) (by omega) (by omega)]

theorem pathValueSegmentOffsets_eq (s : Str) :
    pathValueSegmentOffsets s =
      match goIndex s pathTemplateStart with
      | none => []
      | some d =>
          match goIndex (s.drop (d + 1)) pathTemplateEnd with
          | none => [d + 1]
          | some e => (d + 1) :: pathValueSegmentOffsets ((s.drop (d + 1)).drop e) := by
  show offsetsGo (s.length + 1) s = _
  simp only [offsetsGo]
  cases hg : goIndex s pathTemplateStart with
  | none => rfl
  | some d =>
      have hb := goIndex_bound hg
      rw [pathTemplateStart_length] at hb
      show (match goIndex (s.drop (d + 1)) pathTemplateEnd with
            | none => [d + 1]
            | some e => (d + 1) :: offsetsGo (s.length) ((s.drop (d + 1)).drop e))
          = (match goIndex (s.drop (d + 1)) pathTemplateEnd with
            | none => [d + 1]
            | some e => (d + 1) :: pathValueSegmentOffsets ((s.drop (d + 1)).drop e))
      cases he : goIndex (s.drop (d + 1)) pathTemplateEnd with
      | none => rfl
      | some e =>
          have hlen1 : (s.drop (d + 1)).length = s.length - (d + 1) := by
            simp [List.length_drop]
          have hlen2 : ((s.drop (d + 1)).drop e).length
              = (s.drop (d + 1)).length - e := by
            simp only [List.length_drop]
          show (d + 1) :: offsetsGo (s.length) ((s.drop (d + 1)).drop e)
              = (d + 1) :: pathValueSegmentOffsets ((s.drop (d + 1)).drop e)
          simp only [pathValueSegmentOffsets]
          rw [offsetsGo_congr (s.length) (((s.drop (d + 1)).drop e).length + 1)
            ((s.drop (d + 1)).drop e) (by omega) (by omega)]

/-- The extraction loop of `pathValuesByOffsets` (`builder.go` lines
99-116): `frm` is the absolute position of the previous segment
boundary; Go's `uri[startAt:]` panics when `startAt` exceeds the string
length. -/
def pathValuesLoop (uri : Str) : List Nat → Nat → Except GoPanic (List Str)
  | [], _ => Except.ok []
  | offset :: rest, frm =>
      let startAt := frm + offset
      if uri.length < startAt then Except.error GoPanic.sliceBounds
      else
        match goIndex (uri.drop startAt) pathTemplateEnd with
        | none => Except.ok [uri.drop startAt]
        | some endAt =>
            (pathValuesLoop uri rest (endAt + startAt)).map
              (fun values => ((uri.drop startAt).take endAt) :: values)

/-- `pathValuesByOffsets` (`builder.go`). -/
def pathValuesByOffsets (offsets : List Nat) : Str → Except GoPanic (List Str) :=
  fun uri => pathValuesLoop uri offsets 0

/-! ## Template matching: a request path matches a template when it is the
template with each `:name` parameter segment replaced by a slash-free
value.  This formalises "separator structure matches" from the spec. -/

/-- Substitute the values `vs` for the parameter segments of template
`s`, fuel-indexed like the scanner it mirrors. -/
def substGo : Nat → Str → List Str → Str
  | 0, s, _ => s
  | fuel + 1, s, vs =>
      match goIndex s pathTemplateStart with
      | none => s
      | some d =>
          match goIndex (s.drop (d + 1)) pathTemplateEnd with
          | none => s.take (d + 1) ++ vs.headD []
          | some e =>
              s.take (d + 1) ++ vs.headD []
                ++ substGo fuel ((s.drop (d + 1)).drop e) vs.tail

/-- The request path obtained by instantiating template `s` with
parameter values `vs`. -/
def substTemplate (s : Str) (vs : List Str) : Str := substGo (s.length + 1) s vs

theorem substGo_congr :
    ∀ f1 f2 s vs, s.length < f1 → s.length < f2 →
      substGo f1 s vs = substGo f2 s vs := by
  intro f1
  induction f1 with
  | zero => intro f2 s vs h1; omega
  | succ f ih =>
      intro f2 s vs h1 h2
      cases f2 with
      | zero => omega
      | succ f2' =>
          simp only [substGo]
          cases hg : goIndex s pathTemplateStart with
          | none => rfl
          | some d =>
              have hb := goIndex_bound hg
              rw [pathTemplateStart_length] at hb
              show (match goIndex (s.drop (d + 1)) pathTemplateEnd with
                    | none => s.take (d + 1) ++ vs.headD []
                    | some e =>
                        s.take (d + 1) ++ vs.headD []
                          ++ substGo f ((s.drop (d + 1)).drop e) vs.tail)
                  = (match goIndex (s.drop (d + 1)) pathTemplateEnd with
                    | none => s.take (d + 1) ++ vs.headD []
                    | some e =>
                        s.take (d + 1) ++ vs.headD []
                          ++ substGo f2' ((s.drop (d + 1)).drop e) vs.tail)
              cases he : goIndex (s.drop (d + 1)) pathTemplateEnd with
              | none => rfl
              | some e =>
                  have hlen1 : (s.drop (d + 1)).length = s.length - (d + 1) := by
                    simp [List.length_drop]
                  have hlen2 : ((s.drop (d + 1)).drop e).length
                      = (s.drop (d + 1)).length - e := by
                    simp only [List.length_drop]
                  show s.take (d + 1) ++ vs.headD []
                        ++ substGo f ((s.drop (d + 1)).drop e) vs.tail
                      = s.take (d + 1) ++ vs.headD []
                        ++ substGo f2' ((s.drop (d + 1)).drop e) vs.tail
                  rw [ih f2' ((s.drop (d + 1)).drop e) vs.tail (by omega) (by omega)]

theorem substTemplate_eq (s : Str) (vs : List Str) :
    substTemplate s vs =
      match goIndex s pathTemplateStart with
      | none => s
      | some d =>
          match goIndex (s.drop (d + 1)) pathTemplateEnd with
          | none => s.take (d + 1) ++ vs.headD []
          | some e =>
              s.take (d + 1) ++ vs.headD []
                ++ substTemplate ((s.drop (d + 1)).drop e) vs.tail := by
  show substGo (s.length + 1) s vs = _
  simp only [substGo]
  cases hg : goIndex s pathTemplateStart with
  | none => rfl
  | some d =>
      have hb := goIndex_bound hg
      rw [pathTemplateStart_length] at hb
      show (match goIndex (s.drop (d + 1)) pathTemplateEnd with
            | none => s.take (d + 1) ++ vs.headD []
            | some e =>
                s.take (d + 1) ++ vs.headD []
                  ++ substGo (s.length) ((s.drop (d + 1)).drop e) vs.tail)
          = (match goIndex (s.drop (d + 1)) pathTemplateEnd with
            | none => s.take (d + 1) ++ vs.headD []
            | some e =>
                s.take (d + 1) ++ vs.headD []
                  ++ substTemplate ((s.drop (d + 1)).drop e) vs.tail)
      cases he : goIndex (s.drop (d + 1)) pathTemplateEnd with
      | none => rfl
      | some e =>
          have hlen1 : (s.drop (d + 1)).length = s.length - (d + 1) := by
            simp [List.length_drop]
          have hlen2 : ((s.drop (d + 1)).drop e).length
              = (s.drop (d + 1)).length - e := by
            simp only [List.length_drop]
          show s.take (d + 1) ++ vs.headD []
                ++ substGo (s.length) ((s.drop (d + 1)).drop e) vs.tail
              = s.take (d + 1) ++ vs.headD []
                ++ substTemplate ((s.drop (d + 1)).drop e) vs.tail
          simp only [substTemplate]
          rw [substGo_congr (s.length) (((s.drop (d + 1)).drop e).length + 1)
            ((s.drop (d + 1)).drop e) vs.tail (by omega) (by omega)]

/-! ## Facts about slash and sentinel occurrences, feeding the path
count/extraction invariant (claim C5). -/

theorem pathTemplateStart_eq : pathTemplateStart = ['/', ':'] := rfl

theorem pathTemplateEnd_eq : pathTemplateEnd = ['/'] := rfl

theorem strStarts_cons_head {a c : Char} {rest t : Str}
    (h : strStarts (a :: rest) (c :: t) = true) : c = a := by
  simp only [strStarts, Bool.and_eq_true, beq_iff_eq] at h
  exact h.1.symm

theorem strStarts_slash {s : Str} :
    strStarts pathTemplateEnd s = true ↔ ∃ t, s = '/' :: t := by
  rw [pathTemplateEnd_eq]
  constructor
  · intro h
    obtain ⟨t, ht⟩ := strStarts_iff_append.mp h
    exact ⟨t, ht⟩
  · rintro ⟨t, rfl⟩
    exact strStarts_iff_append.mpr ⟨t, rfl⟩

theorem strStarts_slash_false_of_ne {c : Char} {t : Str} (hc : c ≠ '/') :
    strStarts pathTemplateEnd (c :: t) = false := by
  cases hb : strStarts pathTemplateEnd (c :: t) with
  | false => rfl
  | true =>
      rw [pathTemplateEnd_eq] at hb
      exact absurd (strStarts_cons_head hb) hc

theorem strStarts_sentinel_false_of_ne {c : Char} {t : Str} (hc : c ≠ '/') :
    strStarts pathTemplateStart (c :: t) = false := by
  cases hb : strStarts pathTemplateStart (c :: t) with
  | false => rfl
  | true =>
      rw [pathTemplateStart_eq] at hb
      exact absurd (strStarts_cons_head hb) hc

theorem goIndex_slash_cons_ne {c : Char} {t : Str} (hc : c ≠ '/') :
    goIndex (c :: t) pathTemplateEnd
      = (goIndex t pathTemplateEnd).map (fun i => i + 1) := by
  simp [goIndex, strStarts_slash_false_of_ne hc]

theorem goIndex_slash_none {v : Str} (h : ('/' : Char) ∉ v) :
    goIndex v pathTemplateEnd = none := by
  induction v with
  | nil => rfl
  | cons c t ih =>
      have hc : c ≠ '/' := fun hcc => h (hcc ▸ List.mem_cons_self c t)
      rw [goIndex_slash_cons_ne hc, ih (fun hm => h (List.mem_cons_of_mem c hm))]
      rfl

theorem goIndex_slash_append {v t : Str} (h : ('/' : Char) ∉ v) :
    goIndex (v ++ '/' :: t) pathTemplateEnd = some v.length := by
  induction v with
  | nil =>
      have hst : strStarts pathTemplateEnd ('/' :: t) = true :=
        strStarts_slash.mpr ⟨t, rfl⟩
      simp [goIndex, hst]
  | cons c v' ih =>
      have hc : c ≠ '/' := fun hcc => h (hcc ▸ List.mem_cons_self c v')
      rw [List.cons_append, goIndex_slash_cons_ne hc,
        ih (fun hm => h (List.mem_cons_of_mem c hm))]
      rfl

theorem no_slash_of_goIndex_slash_none {t : Str}
    (h : goIndex t pathTemplateEnd = none) : ('/' : Char) ∉ t := by
  induction t with
  | nil => simp
  | cons c t' ih =>
      intro hm
      by_cases hc : c = '/'
      · subst hc
        have hst : strStarts pathTemplateEnd ('/' :: t') = true :=
          strStarts_slash.mpr ⟨t', rfl⟩
        simp [goIndex, hst] at h
      · rw [goIndex_slash_cons_ne hc] at h
        rcases List.mem_cons.mp hm with hh | hh
        · exact hc hh.symm
        · exact ih (by simpa using h) hh

theorem goIndex_sentinel_none_of_no_slash {t : Str} (h : ('/' : Char) ∉ t) :
    goIndex t pathTemplateStart = none := by
  induction t with
  | nil => rfl
  | cons c t' ih =>
      have hc : c ≠ '/' := fun hcc => h (hcc ▸ List.mem_cons_self c t')
      have ht' : ('/' : Char) ∉ t' := fun hm => h (List.mem_cons_of_mem c hm)
      simp [goIndex, strStarts_sentinel_false_of_ne hc, ih ht']

theorem countPathSentinel_of_no_slash {t : Str} (h : ('/' : Char) ∉ t) :
    countPathSentinel t = 0 := by
  rw [countPathSentinel_eq, goIndex_sentinel_none_of_no_slash h]

theorem countPathSentinel_cons_ne {c : Char} {t : Str} (hc : c ≠ '/') :
    countPathSentinel (c :: t) = countPathSentinel t := by
  rw [countPathSentinel_eq, countPathSentinel_eq (s := t)]
  have hcons : goIndex (c :: t) pathTemplateStart
      = (goIndex t pathTemplateStart).map (fun i => i + 1) := by
    simp [goIndex, strStarts_sentinel_false_of_ne hc]
  rw [hcons]
  cases hg : goIndex t pathTemplateStart with
  | none => rfl
  | some i =>
      show 1 + countPathSentinel ((c :: t).drop (i + 1 + 2))
          = 1 + countPathSentinel (t.drop (i + 2))
      have hd : (c :: t).drop (i + 1 + 2) = t.drop (i + 2) := by
        have harith : i + 1 + 2 = i + 2 + 1 := by omega
        rw [harith, List.drop_succ_cons]
      rw [hd]

theorem countPathSentinel_skip :
    ∀ (m : Nat) (t : Str),
      (∀ j, j < m → strStarts pathTemplateEnd (t.drop j) = false) →
      countPathSentinel t = countPathSentinel (t.drop m) := by
  intro m
  induction m with
  | zero => intro t _; rfl
  | succ m ih =>
      intro t h
      cases t with
      | nil => simp
      | cons c t' =>
          have hc : c ≠ '/' := by
            intro hcc
            subst hcc
            have h0 := h 0 (Nat.succ_pos m)
            rw [List.drop_zero, strStarts_slash.mpr ⟨t', rfl⟩] at h0
            simp at h0
          have hdrop : (c :: t').drop (m + 1) = t'.drop m := List.drop_succ_cons
          rw [countPathSentinel_cons_ne hc, hdrop]
          exact ih t' (fun j hj => by
            have hx := h (j + 1) (by omega)
            simpa [List.drop_succ_cons] using hx)

theorem drop_template_colon {s : Str} {d : Nat}
    (hg : goIndex s pathTemplateStart = some d) :
    ∃ t0, s.drop (d + 1) = ':' :: t0 := by
  have hst := goIndex_starts hg
  rw [pathTemplateStart_eq] at hst
  obtain ⟨t0, ht0⟩ := strStarts_iff_append.mp hst
  refine ⟨t0, ?_⟩
  have harith : d + 1 = 1 + d := by omega
  have hdd : s.drop (d + 1) = (s.drop d).drop 1 := by
    rw [List.drop_drop, harith]
  rw [hdd, ht0]
  rfl

theorem offsets_length_aux :
    ∀ (n : Nat) (s : Str), s.length ≤ n →
      (pathValueSegmentOffsets s).length = countPathSentinel s := by
  intro n
  induction n with
  | zero =>
      intro s hs
      rw [pathValueSegmentOffsets_eq, countPathSentinel_eq]
      cases hg : goIndex s pathTemplateStart with
      | none => rfl
      | some d =>
          have hb := goIndex_bound hg
          rw [pathTemplateStart_length] at hb
          omega
  | succ n ih =>
      intro s hs
      rw [pathValueSegmentOffsets_eq, countPathSentinel_eq]
      cases hg : goIndex s pathTemplateStart with
      | none => rfl
      | some d =>
          have hb := goIndex_bound hg
          rw [pathTemplateStart_length] at hb
          show (match goIndex (s.drop (d + 1)) pathTemplateEnd with
                | none => [d + 1]
                | some e =>
                    (d + 1) :: pathValueSegmentOffsets ((s.drop (d + 1)).drop e)).length
              = 1 + countPathSentinel (s.drop (d + 2))
          cases he : goIndex (s.drop (d + 1)) pathTemplateEnd with
          | none =>
              have hnos : ('/' : Char) ∉ s.drop (d + 1) :=
                no_slash_of_goIndex_slash_none he
              have hnos2 : ('/' : Char) ∉ s.drop (d + 2) := by
                intro hm
                apply hnos
                have harith : d + 2 = 1 + (d + 1) := by omega
                have hdd : s.drop (d + 2) = (s.drop (d + 1)).drop 1 := by
                  rw [List.drop_drop, harith]
                rw [hdd] at hm
                exact List.mem_of_mem_drop hm
              show ([d + 1] : List Nat).length = 1 + countPathSentinel (s.drop (d + 2))
              rw [countPathSentinel_of_no_slash hnos2]
              rfl
          | some e =>
              obtain ⟨t0, ht0⟩ := drop_template_colon hg
              have he1 : 1 ≤ e := by
                by_contra h0
                have he0 : e = 0 := by omega
                subst he0
                have hst := goIndex_starts he
                rw [List.drop_zero, ht0,
                  strStarts_slash_false_of_ne (by decide : (':' : Char) ≠ '/')] at hst
                exact Bool.noConfusion hst
              have hlenR : ((s.drop (d + 1)).drop e).length ≤ n := by
                simp only [List.length_drop]
                omega
              have hIH := ih ((s.drop (d + 1)).drop e) hlenR
              have hskip : countPathSentinel (s.drop (d + 2))
                  = countPathSentinel ((s.drop (d + 2)).drop (e - 1)) := by
                apply countPathSentinel_skip
                intro j hj
                have harith : d + 2 + j = d + 1 + (j + 1) := by omega
                have hdd : (s.drop (d + 2)).drop j = (s.drop (d + 1)).drop (j + 1) := by
                  rw [List.drop_drop, List.drop_drop, harith]
                rw [hdd]
                exact goIndex_min he (j + 1) (by omega)
              have hRR : (s.drop (d + 2)).drop (e - 1) = (s.drop (d + 1)).drop e := by
                have harith : d + 2 + (e - 1) = d + 1 + e := by omega
                rw [List.drop_drop, List.drop_drop, harith]
              show ((d + 1) :: pathValueSegmentOffsets ((s.drop (d + 1)).drop e)).length
                  = 1 + countPathSentinel (s.drop (d + 2))
              rw [List.length_cons, hIH, hskip, hRR]
              omega

theorem pathValueSegmentOffsets_length (s : Str) :
    (pathValueSegmentOffsets s).length = countPathSentinel s :=
  offsets_length_aux s.length s (Nat.le_refl _)

theorem take_append_len (Q R : Str) : (Q ++ R).take Q.length = Q := by
  induction Q with
  | nil => rfl
  | cons c q ih => simp [List.take_succ_cons, ih]

theorem drop_append_len (Q R : Str) : (Q ++ R).drop Q.length = R := by
  induction Q with
  | nil => rfl
  | cons c q ih => simp only [List.cons_append, List.length_cons, List.drop_succ_cons, ih]

theorem drop_append_add (Q R : Str) (m : Nat) :
    (Q ++ R).drop (Q.length + m) = R.drop m := by
  induction Q with
  | nil => simp
  | cons c q ih =>
      have harith : (c :: q).length + m = (q.length + m) + 1 := by
        simp [List.length_cons]
        omega
      rw [harith, List.cons_append, List.drop_succ_cons, ih]

theorem pathValuesLoop_shift :
    ∀ (offs : List Nat) (Q R : Str) (t : Nat),
      pathValuesLoop (Q ++ R) offs (Q.length + t) = pathValuesLoop R offs t := by
  intro offs
  induction offs with
  | nil => intro Q R t; rfl
  | cons o rest ih =>
      intro Q R t
      simp only [pathValuesLoop]
      have hdrop : (Q ++ R).drop (Q.length + t + o) = R.drop (t + o) := by
        have harith : Q.length + t + o = Q.length + (t + o) := by omega
        rw [harith, drop_append_add]
      by_cases hcase : R.length < t + o
      · rw [if_pos (by simp only [List.length_append]; omega),
          if_pos hcase]
      · rw [if_neg (by simp only [List.length_append]; omega),
          if_neg hcase, hdrop]
        cases hgi : goIndex (R.drop (t + o)) pathTemplateEnd with
        | none => rfl
        | some e =>
            show (pathValuesLoop (Q ++ R) rest (e + (Q.length + t + o))).map
                  (fun values => ((R.drop (t + o)).take e) :: values)
                = (pathValuesLoop R rest (e + (t + o))).map
                  (fun values => ((R.drop (t + o)).take e) :: values)
            have harith : e + (Q.length + t + o) = Q.length + (e + (t + o)) := by omega
            rw [harith, ih]

theorem substTemplate_slash_head (t : Str) (vs : List Str) :
    ∃ t', substTemplate ('/' :: t) vs = '/' :: t' := by
  rw [substTemplate_eq]
  cases hg : goIndex ('/' :: t) pathTemplateStart with
  | none => exact ⟨t, rfl⟩
  | some d =>
      show ∃ t', (match goIndex (('/' :: t).drop (d + 1)) pathTemplateEnd with
            | none => ('/' :: t).take (d + 1) ++ vs.headD []
            | some e =>
                ('/' :: t).take (d + 1) ++ vs.headD []
                  ++ substTemplate ((('/' :: t).drop (d + 1)).drop e) vs.tail)
          = '/' :: t'
      cases he : goIndex (('/' :: t).drop (d + 1)) pathTemplateEnd with
      | none =>
          refine ⟨t.take d ++ vs.headD [], ?_⟩
          show ('/' :: t).take (d + 1) ++ vs.headD [] = '/' :: (t.take d ++ vs.headD [])
          rw [List.take_succ_cons, List.cons_append]
      | some e =>
          refine ⟨t.take d ++ vs.headD []
            ++ substTemplate ((('/' :: t).drop (d + 1)).drop e) vs.tail, ?_⟩
          show ('/' :: t).take (d + 1) ++ vs.headD []
              ++ substTemplate ((('/' :: t).drop (d + 1)).drop e) vs.tail
            = '/' :: (t.take d ++ vs.headD []
              ++ substTemplate ((('/' :: t).drop (d + 1)).drop e) vs.tail)
          rw [List.take_succ_cons, List.cons_append, List.cons_append]

theorem subst_extract_aux :
    ∀ (n : Nat) (s : Str) (vs : List Str), s.length ≤ n →
      vs.length = (pathValueSegmentOffsets s).length →
      (∀ v ∈ vs, ('/' : Char) ∉ v) →
      pathValuesLoop (substTemplate s vs) (pathValueSegmentOffsets s) 0
        = Except.ok vs := by
  intro n
  induction n with
  | zero =>
      intro s vs hs hlen hnos
      rw [pathValueSegmentOffsets_eq] at hlen ⊢
      rw [substTemplate_eq]
      cases hg : goIndex s pathTemplateStart with
      | none =>
          rw [hg] at hlen
          have hlen0 : vs.length = ([] : List Nat).length := hlen
          have hvs : vs = [] := List.eq_nil_of_length_eq_zero hlen0
          subst hvs
          rfl
      | some d =>
          have hb := goIndex_bound hg
          rw [pathTemplateStart_length] at hb
          omega
  | succ n ih =>
      intro s vs hs hlen hnos
      rw [pathValueSegmentOffsets_eq] at hlen ⊢
      rw [substTemplate_eq]
      cases hg : goIndex s pathTemplateStart with
      | none =>
          rw [hg] at hlen
          have hlen0 : vs.length = ([] : List Nat).length := hlen
          have hvs : vs = [] := List.eq_nil_of_length_eq_zero hlen0
          subst hvs
          rfl
      | some d =>
          have hb := goIndex_bound hg
          rw [pathTemplateStart_length] at hb
          rw [hg] at hlen
          show pathValuesLoop
              (match goIndex (s.drop (d + 1)) pathTemplateEnd with
               | none => s.take (d + 1) ++ vs.headD []
               | some e =>
                   s.take (d + 1) ++ vs.headD []
                     ++ substTemplate ((s.drop (d + 1)).drop e) vs.tail)
              (match goIndex (s.drop (d + 1)) pathTemplateEnd with
               | none => [d + 1]
               | some e => (d + 1) :: pathValueSegmentOffsets ((s.drop (d + 1)).drop e))
              0
            = Except.ok vs
          have hlen' : vs.length
              = (match goIndex (s.drop (d + 1)) pathTemplateEnd with
                 | none => [d + 1]
                 | some e =>
                     (d + 1) :: pathValueSegmentOffsets ((s.drop (d + 1)).drop e)).length :=
            hlen
          clear hlen
          have hQ : (s.take (d + 1)).length = d + 1 := by
            rw [List.length_take]
            omega
          cases he : goIndex (s.drop (d + 1)) pathTemplateEnd with
          | none =>
              rw [he] at hlen'
              have hl : vs.length = ([d + 1] : List Nat).length := hlen'
              rw [show ([d + 1] : List Nat).length = 1 from rfl] at hl
              obtain ⟨v, hvs⟩ : ∃ v, vs = [v] := by
                cases vs with
                | nil => simp at hl
                | cons v vs' =>
                    cases vs' with
                    | nil => exact ⟨v, rfl⟩
                    | cons u us => simp at hl
              subst hvs
              have hv : ('/' : Char) ∉ v := hnos v (List.mem_cons_self v [])
              show pathValuesLoop (s.take (d + 1) ++ v) [d + 1] 0 = Except.ok [v]
              simp only [pathValuesLoop]
              rw [if_neg (by simp only [List.length_append, hQ]; omega)]
              have hz : 0 + (d + 1) = (s.take (d + 1)).length := by
                rw [hQ]
                omega
              rw [hz, drop_append_len, goIndex_slash_none hv]
          | some e =>
              rw [he] at hlen'
              have hl : vs.length
                  = ((d + 1) :: pathValueSegmentOffsets ((s.drop (d + 1)).drop e)).length :=
                hlen'
              rw [List.length_cons] at hl
              obtain ⟨v, vs', hvs⟩ : ∃ v vs', vs = v :: vs' := by
                cases vs with
                | nil => exact absurd hl (by simp)
                | cons v vs' => exact ⟨v, vs', rfl⟩
              subst hvs
              have hv : ('/' : Char) ∉ v := hnos v (List.mem_cons_self v vs')
              have hnos' : ∀ u ∈ vs', ('/' : Char) ∉ u :=
                fun u hu => hnos u (List.mem_cons_of_mem v hu)
              obtain ⟨rt, hrt⟩ : ∃ rt, (s.drop (d + 1)).drop e = '/' :: rt :=
                strStarts_slash.mp (goIndex_starts he)
              have hsub : ∃ t', substTemplate ((s.drop (d + 1)).drop e) vs' = '/' :: t' := by
                rw [hrt]
                exact substTemplate_slash_head rt vs'
              obtain ⟨st', hsub⟩ := hsub
              show pathValuesLoop
                  (s.take (d + 1) ++ v ++ substTemplate ((s.drop (d + 1)).drop e) vs')
                  ((d + 1) :: pathValueSegmentOffsets ((s.drop (d + 1)).drop e)) 0
                = Except.ok (v :: vs')
              simp only [pathValuesLoop]
              rw [if_neg (by simp only [List.length_append, hQ]; omega)]
              have hdropQ :
                  (s.take (d + 1) ++ v
                    ++ substTemplate ((s.drop (d + 1)).drop e) vs').drop (0 + (d + 1))
                  = v ++ substTemplate ((s.drop (d + 1)).drop e) vs' := by
                rw [List.append_assoc]
                have hz : 0 + (d + 1) = (s.take (d + 1)).length := by
                  rw [hQ]
                  omega
                rw [hz, drop_append_len]
              rw [hdropQ]
              have hgi : goIndex (v ++ substTemplate ((s.drop (d + 1)).drop e) vs')
                  pathTemplateEnd = some v.length := by
                rw [hsub]
                exact goIndex_slash_append hv
              rw [hgi]
              show (pathValuesLoop
                      (s.take (d + 1) ++ v ++ substTemplate ((s.drop (d + 1)).drop e) vs')
                      (pathValueSegmentOffsets ((s.drop (d + 1)).drop e))
                      (v.length + (0 + (d + 1)))).map
                  (fun values =>
                    ((v ++ substTemplate ((s.drop (d + 1)).drop e) vs').take v.length)
                      :: values)
                = Except.ok (v :: vs')
              rw [take_append_len]
              have harith2 : v.length + (0 + (d + 1))
                  = (s.take (d + 1) ++ v).length + 0 := by
                simp only [List.length_append, hQ]
                omega
              rw [harith2, pathValuesLoop_shift]
              have hR : ((s.drop (d + 1)).drop e).length ≤ n := by
                simp only [List.length_drop]
                omega
              have hlen2 : vs'.length
                  = (pathValueSegmentOffsets ((s.drop (d + 1)).drop e)).length := by
                simp only [List.length_cons] at hl
                omega
              rw [ih ((s.drop (d + 1)).drop e) vs' hR hlen2 hnos']
              rfl

/-! ## Path-segment converters (part_002: `strconv`-backed converters). -/

/-- Accumulate base-10 digits; `none` on any non-digit. -/
def digitsValAux : Str → Nat → Option Nat
  | [], acc => some acc
  | c :: rest, acc =>
      if 48 ≤ c.toNat ∧ c.toNat ≤ 57 then
        digitsValAux rest (acc * 10 + (c.toNat - 48))
      else none

/-- `strconv.ParseUint(s, 10, bitSize)`: digits only, range-checked. -/
def goParseUint (s : Str) (bitSize : Nat) : Except GoErr Nat :=
  if s.isEmpty then Except.error (GoErr.newErr "invalid syntax")
  else
    match digitsValAux s 0 with
    | none => Except.error (GoErr.newErr "invalid syntax")
    | some v =>
        if v < 2 ^ bitSize then Except.ok v
        else Except.error (GoErr.newErr "value out of range")

/-- `strconv.ParseInt(s, 10, bitSize)`: optional sign, digits,
range-checked against the signed interval. -/
def goParseInt (s : Str) (bitSize : Nat) : Except GoErr Int :=
  match s with
  | [] => Except.error (GoErr.newErr "invalid syntax")
  | c :: rest =>
      let signDigits : Bool × Str :=
        if c = '-' then (true, rest)
        else if c = '+' then (false, rest) else (false, c :: rest)
      if signDigits.2.isEmpty then Except.error (GoErr.newErr "invalid syntax")
      else
        match digitsValAux signDigits.2 0 with
        | none => Except.error (GoErr.newErr "invalid syntax")
        | some v =>
            if signDigits.1 then
              if v ≤ 2 ^ (bitSize - 1) then Except.ok (-(v : Int))
              else Except.error (GoErr.newErr "value out of range")
            else
              if v < 2 ^ (bitSize - 1) then Except.ok (v : Int)
              else Except.error (GoErr.newErr "value out of range")

/-- `strconv.ParseBool`: the exact accepted spellings. -/
def goParseBool (s : Str) : Except GoErr Bool :=
  if s = ("1".toList) ∨ s = ("t".toList) ∨ s = ("T".toList)
      ∨ s = ("TRUE".toList) ∨ s = ("true".toList) ∨ s = ("True".toList) then
    Except.ok true
  else if s = ("0".toList) ∨ s = ("f".toList) ∨ s = ("F".toList)
      ∨ s = ("FALSE".toList) ∨ s = ("false".toList) ∨ s = ("False".toList) then
    Except.ok false
  else Except.error (GoErr.newErr "invalid syntax")

/-- A compiled path converter: `Convert(pathPart) (reflect.Value, error)`. -/
abbrev PathConverterFn := Str → Except GoErr GoValue

/-- `StringPathParameterConverter` (part_002). -/
def stringConv : PathConverterFn := fun s => Except.ok (GoValue.str s)

/-- `IntPathParameterConverter` (part_002): `ParseInt` then wrap. -/
def intConv (bitSize : Nat) : PathConverterFn :=
  fun s => (goParseInt s bitSize).map GoValue.intV

/-- `UintPathParameterConverter` (part_002). -/
def uintConv (bitSize : Nat) : PathConverterFn :=
  fun s => (goParseUint s bitSize).map GoValue.uintV

/-- `BoolPathParameterConverter` (part_002). -/
def boolConv : PathConverterFn := fun s => (goParseBool s).map GoValue.boolV

/-- `SliceBytePathParameterConverter` (part_002): `[]byte(pathPart)`. -/
def sliceByteConv : PathConverterFn := fun s => Except.ok (GoValue.bytesV (strBytes s))

/-- `ArrayBytePathParameterConverter` (part_002): `reflect.Copy` into a
zeroed array of the declared length copies `min(length, len(s))` bytes;
the remainder stays zero. -/
def arrayByteConv (length : Nat) : PathConverterFn :=
  fun s => Except.ok (GoValue.bytesV ((strBytes s ++ List.replicate length 0).take length))

/-! ## Parameter groups and the classification table (`builder.go`). -/

/-- `pathParametersGroup` (iota value 0). -/
def pathParametersGroup : Nat := 0
/-- `queryParametersGroup`. -/
def queryParametersGroup : Nat := 1
/-- `headerParametersGroup`. -/
def headerParametersGroup : Nat := 2
/-- `bodyParametersGroup`. -/
def bodyParametersGroup : Nat := 3
/-- `cookieParametersGroup`. -/
def cookieParametersGroup : Nat := 4
/-- `responseBodyParametersGroup`. -/
def responseBodyParametersGroup : Nat := 5
/-- `responseErrorParametersGroup`. -/
def responseErrorParametersGroup : Nat := 6
/-- `responseStatusCodeParametersGroup`. -/
def responseStatusCodeParametersGroup : Nat := 7
/-- `responseHeaderParametersGroup`. -/
def responseHeaderParametersGroup : Nat := 8
/-- `responseContentTypeParametersGroup`. -/
def responseContentTypeParametersGroup : Nat := 9
/-- `responseCookieParametersGroup`. -/
def responseCookieParametersGroup : Nat := 10

/-- Set/replace a key in an association list (Go map assignment). -/
def alSet {α : Type} : List (Nat × α) → Nat → α → List (Nat × α)
  | [], g, x => [(g, x)]
  | (k, v) :: rest, g, x =>
      if k = g then (g, x) :: rest else (k, v) :: alSet rest g x

/-- The `map[int][]reflect.Type` classification table, tagged with a Go
map identity for the cloning layer; `none` at the builder level models
the nil map. -/
structure PMap where
  mid : Nat
  entries : List (Nat × List GoType)

/-- Go map read: a missing key or a nil map reads as the empty slice. -/
def pmapGet (m : Option PMap) (g : Nat) : List GoType :=
  match m with
  | none => []
  | some m => ((m.entries.lookup g).getD [])

/-- Go `m[g] = append(m[g], t)`: panics on a nil map. -/
def pmapAppend (m : Option PMap) (g : Nat) (t : GoType) :
    Except GoPanic (Option PMap) :=
  match m with
  | none => Except.error GoPanic.nilMapAssignment
  | some m =>
      Except.ok (some { m with entries := alSet m.entries g (((m.entries.lookup g).getD []) ++ [t]) })

/-- A Go slice value: backing-array identity plus contents.  The identity
is what `clone()`'s deep copy refreshes. -/
structure GoSlice (α : Type) where
  sid : Nat
  data : List α

/-- The argument passed to `builder.Handler`: either a function value or
a non-function value (whose `reflect.TypeOf(...).Kind()` is not `Func`). -/
inductive ServiceArg where
  | fn (f : GoFunc)
  | nonFn (t : GoType)

/-- The `builder` struct (`builder.go`).  Function-typed fields are
`Option`s of Lean functions (`none` is Go's nil); slices and the
classification map carry identity tags for the cloning layer. -/
structure builder where
  method : Str
  pathValues : Str → Except GoPanic (List Str)
  pathParamsAmount : Nat
  decoder : Option DecoderFn := none
  contentTypeProvider : Option Str := none
  encoder : Option EncoderFn := none
  errors : GoSlice GoErr
  parametersBy : Option PMap := none
  serviceValue : Option GoFunc := none
  orderOfOtherParameters : GoSlice Nat
  pathParameters : Option (List Str → List GoValue × Option GoErr) := none
  headerParameters : Option (HeaderAList → GoValue × Option GoErr) := none
  queryParameters : Option (List (Str × List Str) → GoValue × Option GoErr) := none
  cookieParameters : Option (List Cookie → GoValue × Option GoErr) := none
  bodyParameters : Option (Option (List Nat) → GoValue × Option GoErr) := none
  errorMapper : Option ErrorMapperFn := none
  orderOfResponseParameters : GoSlice Nat
  responseHeaderParameters : Option (GoValue → Except GoPanic (Option HeaderAList)) := none
  responseStatusCodeParameters : Option (GoValue → Except GoPanic Int) := none
  responseCookieParameters : Option (GoValue → Except GoPanic (List Cookie)) := none
  responseErrorParameters : Option ErrorMapperFn := none

/-- `newBuilder(method, urlPathTemplate)` (`builder.go`): counts the
parameter sentinels, compiles the path extractor, and seeds the empty
error list.  Slice identities 0,1,2 tag the initial backing stores. -/
def newBuilder (method urlPathTemplate : Str) : builder :=
  let pathParamsAmount := countPathSentinel urlPathTemplate
  { method := method
    pathValues :=
      if 0 < pathParamsAmount then
        pathValuesByOffsets (pathValueSegmentOffsets urlPathTemplate)
      else fun uri => Except.ok [uri]
    pathParamsAmount := pathParamsAmount
    errors := ⟨0, []⟩
    orderOfOtherParameters := ⟨1, []⟩
    orderOfResponseParameters := ⟨2, []⟩ }

/-- `builder.clone()` (`builder.go` lines 160-189): value copy of the
struct, with fresh backing stores for the classification map, the two
order vectors and the error list whenever they are non-empty (the
source's `len(...) > 0` guards).  `alloc` supplies fresh identities. -/
def builder.clone (b : builder) (alloc : Nat) : builder × Nat :=
  let pm : Option PMap × Nat :=
    match b.parametersBy with
    | some m =>
        if 0 < m.entries.length then (some ⟨alloc, m.entries⟩, alloc + 1)
        else (some m, alloc)
    | none => (none, alloc)
  let oo : GoSlice Nat × Nat :=
    if 0 < b.orderOfOtherParameters.data.length then
      (⟨pm.2, b.orderOfOtherParameters.data⟩, pm.2 + 1)
    else (b.orderOfOtherParameters, pm.2)
  let op : GoSlice Nat × Nat :=
    if 0 < b.orderOfResponseParameters.data.length then
      (⟨oo.2, b.orderOfResponseParameters.data⟩, oo.2 + 1)
    else (b.orderOfResponseParameters, oo.2)
  let er : GoSlice GoErr × Nat :=
    if 0 < b.errors.data.length then (⟨op.2, b.errors.data⟩, op.2 + 1)
    else (b.errors, op.2)
  ({ b with parametersBy := pm.1, orderOfOtherParameters := oo.1,
            orderOfResponseParameters := op.1, errors := er.1 }, er.2)

/-- `builder.Before`: clones; the interceptor assignment is commented out
in the source. -/
def builder.Before (b : builder) (_interceptor : InterceptorFn) (alloc : Nat) :
    builder × Nat :=
  b.clone alloc

/-- `builder.Decoder`. -/
def builder.Decoder (b : builder) (decoder : DecoderFn) (alloc : Nat) :
    builder × Nat :=
  let c := b.clone alloc
  ({ c.1 with decoder := some decoder }, c.2)

/-- `builder.ResponseContentType`. -/
def builder.ResponseContentType (b : builder) (setter : Str) (alloc : Nat) :
    builder × Nat :=
  let c := b.clone alloc
  ({ c.1 with contentTypeProvider := some setter }, c.2)

/-- `builder.Handler` (`builder.go` lines 312-321): a non-function
argument appends an `InvalidMapping` error to the receiver copy (no
clone, `serviceValue` untouched; the Go append allocates a new backing
array); a function argument clones and stores the service value. -/
def builder.Handler (b : builder) (service : ServiceArg) (alloc : Nat) :
    builder × Nat :=
  match service with
  | ServiceArg.nonFn _ =>
      ({ b with errors :=
          ⟨alloc, b.errors.data
            ++ [InvalidMappingError (GoErr.newErr "handler is not a function/method")]⟩ },
        alloc + 1)
  | ServiceArg.fn f =>
      let c := b.clone alloc
      ({ c.1 with serviceValue := some f }, c.2)

/-- `builder.Encoder`. -/
def builder.Encoder (b : builder) (encoder : EncoderFn) (alloc : Nat) :
    builder × Nat :=
  let c := b.clone alloc
  ({ c.1 with encoder := some encoder }, c.2)

/-- `builder.After`: clones; the interceptor assignment is commented out
in the source. -/
def builder.After (b : builder) (_interceptor : InterceptorFn) (alloc : Nat) :
    builder × Nat :=
  b.clone alloc

/-- `builder.ErrorMapping`. -/
def builder.ErrorMapping (b : builder) (errorMapper : ErrorMapperFn) (alloc : Nat) :
    builder × Nat :=
  let c := b.clone alloc
  ({ c.1 with errorMapper := some errorMapper }, c.2)

/-- `GET` verb constructor (`builder.go`); the other verbs differ only in
the method string. -/
def GET (urlPathTemplate : Str) : builder := newBuilder ("GET".toList) urlPathTemplate

/-- `POST` verb constructor. -/
def POST (urlPathTemplate : Str) : builder := newBuilder ("POST".toList) urlPathTemplate

/-- `PUT` verb constructor. -/
def PUT (urlPathTemplate : Str) : builder := newBuilder ("PUT".toList) urlPathTemplate

/-- `DELETE` verb constructor. -/
def DELETE (urlPathTemplate : Str) : builder := newBuilder ("DELETE".toList) urlPathTemplate

/-! ## Handler introspection (`builder.go`: `groupRequestPathParameters`,
`groupRequestOtherParameters`, `groupResponseParameters`). -/

/-- The per-type check of the path-parameter kind switch
(`groupRequestPathParameters`): `none` means accepted. -/
def pathParamTypeCheck (t : GoType) : Option GoErr :=
  match t.kind with
  | GoKind.string | GoKind.bool
  | GoKind.int | GoKind.int8 | GoKind.int16 | GoKind.int32 | GoKind.int64
  | GoKind.uint | GoKind.uint8 | GoKind.uint16 | GoKind.uint32 | GoKind.uint64 => none
  | GoKind.slice | GoKind.array =>
      if t.elemKind = some GoKind.uint8 then none
      else some (UnsupportedTypeError
        (GoErr.newErr "supports only slice/array of bytes, received"))
  | _ => some (UnsupportedTypeError
      (GoErr.newErr ("unsupported type for path parameter: " ++ t.name)))

/-- The path-parameter loop: collects accepted types in order and stops
at the first rejected one (the source `return`s before appending it). -/
def pathParamsScan : List GoType → List GoType × Option GoErr
  | [] => ([], none)
  | t :: rest =>
      match pathParamTypeCheck t with
      | some e => ([], some e)
      | none =>
          let r := pathParamsScan rest
          (t :: r.1, r.2)

/-- `groupRequestPathParameters` (`builder.go` lines 333-359): arity
check, fresh classification map, then the kind-checked appends. -/
def groupRequestPathParameters (b : builder) (serviceType : GoFunc) : builder :=
  if serviceType.ins.length < b.pathParamsAmount then
    { b with errors := { b.errors with data := b.errors.data
        ++ [InvalidMappingError (GoErr.newErr "unexpected amount of path parameters")] } }
  else
    let scanned := pathParamsScan (serviceType.ins.take b.pathParamsAmount)
    { b with
      parametersBy := some ⟨0, match scanned.1 with
        | [] => []
        | ts => [(pathParametersGroup, ts)]⟩
      errors :=
        match scanned.2 with
        | some e => { b.errors with data := b.errors.data ++ [e] }
        | none => b.errors }

/-- The group and duplicate-error message `addToGroup` uses for a
non-path input parameter (`groupRequestOtherParameters`); classification
is by exact identity against the sentinel types. -/
def otherGroupAndMsg (t : GoType) : Nat × String :=
  if t = headersType then
    (headerParametersGroup,
      "unable do mapping of headers to more than 1 parameter in service function")
  else if t = urlQueryType then
    (queryParametersGroup,
      "unable do mapping of URL query values to more than 1 parameter in service function")
  else if t = cookiesType then
    (cookieParametersGroup,
      "unable do mapping of cookies to more than 1 parameter in service function")
  else
    (bodyParametersGroup,
      "unable do mapping of body to more than 1 parameter in service function")

/-- The `addToGroup` loop of `groupRequestOtherParameters`: a parameter
whose group is already occupied records an `InvalidMapping` error and
stops the loop (`noError` becomes false). -/
def otherParamsLoop (pb : Option PMap) (ord : List Nat) (errs : List GoErr) :
    List GoType → Except GoPanic (Option PMap × List Nat × List GoErr)
  | [] => Except.ok (pb, ord, errs)
  | t :: rest =>
      let gm := otherGroupAndMsg t
      if 0 < (pmapGet pb gm.1).length then
        Except.ok (pb, ord, errs ++ [InvalidMappingError (GoErr.newErr gm.2)])
      else
        match pmapAppend pb gm.1 t with
        | Except.error p => Except.error p
        | Except.ok pb2 => otherParamsLoop pb2 (ord ++ [gm.1]) errs rest

/-- `groupRequestOtherParameters` (`builder.go` lines 361-386). -/
def groupRequestOtherParameters (b : builder) (serviceType : GoFunc) :
    Except GoPanic builder :=
  match otherParamsLoop b.parametersBy b.orderOfOtherParameters.data b.errors.data
      (serviceType.ins.drop b.pathParamsAmount) with
  | Except.error p => Except.error p
  | Except.ok r =>
      Except.ok { b with
        parametersBy := r.1
        orderOfOtherParameters := { b.orderOfOtherParameters with data := r.2.1 }
        errors := { b.errors with data := r.2.2 } }

/-- The output-classification loop of `groupResponseParameters`:
headers/cookies append unconditionally; a second status code or error
slot records an `InvalidMapping` error and returns; a second body slot
records an `InvalidMapping` error but continues. -/
def responseParamsLoop (pb : Option PMap) (ord : List Nat) (errs : List GoErr) :
    List GoType → Except GoPanic (Option PMap × List Nat × List GoErr)
  | [] => Except.ok (pb, ord, errs)
  | t :: rest =>
      if t = headersType then
        match pmapAppend pb responseHeaderParametersGroup t with
        | Except.error p => Except.error p
        | Except.ok pb2 =>
            responseParamsLoop pb2 (ord ++ [responseHeaderParametersGroup]) errs rest
      else if t = cookiesType then
        match pmapAppend pb responseCookieParametersGroup t with
        | Except.error p => Except.error p
        | Except.ok pb2 =>
            responseParamsLoop pb2 (ord ++ [responseCookieParametersGroup]) errs rest
      else if t = httpStatusType then
        if 0 < (pmapGet pb responseStatusCodeParametersGroup).length then
          Except.ok (pb, ord, errs
            ++ [InvalidMappingError (GoErr.newErr "unable to map multiple response status codes")])
        else
          match pmapAppend pb responseStatusCodeParametersGroup t with
          | Except.error p => Except.error p
          | Except.ok pb2 =>
              responseParamsLoop pb2 (ord ++ [responseStatusCodeParametersGroup]) errs rest
      else if t.implsError then
        if 0 < (pmapGet pb responseErrorParametersGroup).length then
          Except.ok (pb, ord, errs
            ++ [InvalidMappingError (GoErr.newErr "unable to map multiple error return values")])
        else
          match pmapAppend pb responseErrorParametersGroup t with
          | Except.error p => Except.error p
          | Except.ok pb2 =>
              responseParamsLoop pb2 (ord ++ [responseErrorParametersGroup]) errs rest
      else
        let errs2 :=
          if 0 < (pmapGet pb responseBodyParametersGroup).length then
            errs ++ [InvalidMappingError (GoErr.newErr "unable to map body to multiple response entities")]
          else errs
        match pmapAppend pb responseBodyParametersGroup t with
        | Except.error p => Except.error p
        | Except.ok pb2 =>
            responseParamsLoop pb2 (ord ++ [responseBodyParametersGroup]) errs2 rest

/-- `groupResponseParameters` (`builder.go` lines 388-428). -/
def groupResponseParameters (b : builder) (serviceType : GoFunc) :
    Except GoPanic builder :=
  match responseParamsLoop b.parametersBy b.orderOfResponseParameters.data
      b.errors.data serviceType.outs with
  | Except.error p => Except.error p
  | Except.ok r =>
      Except.ok { b with
        parametersBy := r.1
        orderOfResponseParameters := { b.orderOfResponseParameters with data := r.2.1 }
        errors := { b.errors with data := r.2.2 } }

/-- `builder.hasParametersIn` (`builder.go` lines 578-581). -/
def hasParametersIn (b : builder) (parametersGroup : Nat) : List GoType × Bool :=
  let parameters := pmapGet b.parametersBy parametersGroup
  let found :=
    match b.parametersBy with
    | none => false
    | some m => (m.entries.lookup parametersGroup).isSome
  (parameters, found && !parameters.isEmpty)

/-! ## Provider compilation (`builder.go`: the `define*` family) and the
default error mapper (`variables.go`). -/

/-- `DefaultErrorMapper` (`variables.go` lines 68-71): `http.Error`
sets Content-Type and X-Content-Type-Options, writes status 500 and the
error text followed by a newline, and the mapper returns nil. -/
def DefaultErrorMapper : ErrorMapperFn := fun err w _ =>
  (w ++ [WEvent.setHeader ("Content-Type".toList) ("text/plain; charset=utf-8".toList),
         WEvent.setHeader ("X-Content-Type-Options".toList) ("nosniff".toList),
         WEvent.writeHeader 500,
         WEvent.write (strBytes ((err.errorString).toList ++ ['\n']))],
   none)

/-- Converter selection for one path-parameter type
(`definePathParameters`): a `PathParameterConverter` implementor wins,
otherwise the kind switch; rejected kinds yield the recorded error. -/
def selectConverter (uc : UserConverters) (t : GoType) :
    Except GoErr PathConverterFn :=
  if t.implsPathConverter then Except.ok (uc t)
  else
    match t.kind with
    | GoKind.string => Except.ok stringConv
    | GoKind.int8 => Except.ok (intConv 8)
    | GoKind.int16 => Except.ok (intConv 16)
    | GoKind.int32 => Except.ok (intConv 32)
    | GoKind.int64 => Except.ok (intConv 64)
    | GoKind.int => Except.ok (intConv 32)
    | GoKind.uint8 => Except.ok (uintConv 8)
    | GoKind.uint16 => Except.ok (uintConv 16)
    | GoKind.uint32 => Except.ok (uintConv 32)
    | GoKind.uint64 => Except.ok (uintConv 64)
    | GoKind.uint => Except.ok (uintConv 32)
    | GoKind.bool => Except.ok boolConv
    | GoKind.slice =>
        if t.elemKind = some GoKind.uint8 then Except.ok sliceByteConv
        else Except.error (UnsupportedTypeError
          (GoErr.newErr "supports only slice/array of bytes"))
    | GoKind.array =>
        if t.elemKind = some GoKind.uint8 then Except.ok (arrayByteConv t.arrayLen)
        else Except.error (UnsupportedTypeError
          (GoErr.newErr "supports only array of bytes"))
    | _ => Except.error (UnsupportedTypeError
        (GoErr.newErr ("for path parameter: " ++ t.name)))

/-- The converter-collection loop of `definePathParameters`; the first
rejected type aborts with its error. -/
def convertersScan (uc : UserConverters) : List GoType → Except GoErr (List PathConverterFn)
  | [] => Except.ok []
  | t :: rest =>
      match selectConverter uc t with
      | Except.error e => Except.error e
      | Except.ok c =>
          match convertersScan uc rest with
          | Except.error e => Except.error e
          | Except.ok cs => Except.ok (c :: cs)

/-- The conversion loop inside the compiled `pathParameters` closure: on
a converter error the values accumulated so far are returned with it. -/
def convertLoop : List PathConverterFn → List Str → List GoValue × Option GoErr
  | [], _ => ([], none)
  | _ :: _, [] => ([], none)
  | c :: cs, v :: vs =>
      match c v with
      | Except.error e => ([], some e)
      | Except.ok gv =>
          let r := convertLoop cs vs
          (gv :: r.1, r.2)

/-- The compiled `pathParameters` closure (`definePathParameters`): the
request-time arity check, then per-position conversion. -/
def pathParametersFn (converters : List PathConverterFn) (pathValues : List Str) :
    List GoValue × Option GoErr :=
  if pathValues.length ≠ converters.length then
    ([], some (InvalidMappingError (GoErr.newErr "unexpected amount of path parameters")))
  else convertLoop converters pathValues

/-- `definePathParameters` (`builder.go` lines 213-310). -/
def definePathParameters (uc : UserConverters) (b : builder) : builder :=
  let hp := hasParametersIn b pathParametersGroup
  if !hp.2 then b
  else
    match convertersScan uc hp.1 with
    | Except.error e => { b with errors := { b.errors with data := b.errors.data ++ [e] } }
    | Except.ok converters =>
        if converters.isEmpty then b
        else { b with pathParameters := some (pathParametersFn converters) }

/-- `defineHeaderParameters` (`builder.go`). -/
def defineHeaderParameters (b : builder) : builder :=
  let hp := hasParametersIn b headerParametersGroup
  if !hp.2 then b
  else
    { b with
      headerParameters := some (fun headers => (GoValue.headerV (some headers), none)) }

/-- `defineQueryParameters` (`builder.go`). -/
def defineQueryParameters (b : builder) : builder :=
  let hp := hasParametersIn b queryParametersGroup
  if !hp.2 then b
  else
    { b with
      queryParameters := some (fun queryValues => (GoValue.queryV queryValues, none)) }

/-- `defineCookieParameters` (`builder.go`). -/
def defineCookieParameters (b : builder) : builder :=
  let hp := hasParametersIn b cookieParametersGroup
  if !hp.2 then b
  else
    { b with
      cookieParameters := some (fun cookieValues => (GoValue.cookiesV (some cookieValues), none)) }

/-- `defineBodyParameters` (`builder.go` lines 482-505): requires exactly
one body type and a decoder; a nil body reader yields the zero value
without invoking the decoder. -/
def defineBodyParameters (b : builder) : builder :=
  let hp := hasParametersIn b bodyParametersGroup
  if !hp.2 then b
  else if hp.1.length ≠ 1 then
    { b with errors := { b.errors with data := b.errors.data
        ++ [InvalidMappingError (GoErr.newErr "doesn't support multiple return body mapped values")] } }
  else
    match b.decoder with
    | none =>
        { b with errors := { b.errors with data := b.errors.data
            ++ [InvalidMappingError
              (GoErr.newErr "mapping of request body to struct without decoder is impossible")] } }
    | some dec =>
        match hp.1 with
        | [bodyType] =>
            { b with bodyParameters := some (fun bodyReader =>
                match bodyReader with
                | none => (zeroValue bodyType, none)
                | some bs => dec bs bodyType) }
        | _ => b

/-- `defineResponseHeaderParameters` (`builder.go`). -/
def defineResponseHeaderParameters (b : builder) : builder :=
  let hp := hasParametersIn b responseHeaderParametersGroup
  if !hp.2 then b
  else if hp.1.length ≠ 1 then
    { b with errors := { b.errors with data := b.errors.data
        ++ [InvalidMappingError
          (GoErr.newErr "supports only single response headers service function return value")] } }
  else
    { b with responseHeaderParameters := some (fun value =>
        match value with
        | GoValue.headerV h => Except.ok h
        | _ => Except.error GoPanic.reflectKindMismatch) }

/-- `defineResponseStatusCodeParameters` (`builder.go`). -/
def defineResponseStatusCodeParameters (b : builder) : builder :=
  let hp := hasParametersIn b responseStatusCodeParametersGroup
  if !hp.2 then b
  else if hp.1.length ≠ 1 then
    { b with errors := { b.errors with data := b.errors.data
        ++ [InvalidMappingError
          (GoErr.newErr "supports only single response status code service function return value")] } }
  else
    { b with responseStatusCodeParameters := some (fun statusCodeValue =>
        match statusCodeValue with
        | GoValue.intV n => Except.ok n
        | _ => Except.error GoPanic.reflectKindMismatch) }

/-- `defineResponseCookieParameters` (`builder.go`); a nil cookie slice
behaves as the empty list downstream. -/
def defineResponseCookieParameters (b : builder) : builder :=
  let hp := hasParametersIn b responseCookieParametersGroup
  if !hp.2 then b
  else if hp.1.length ≠ 1 then
    { b with errors := { b.errors with data := b.errors.data
        ++ [InvalidMappingError
          (GoErr.newErr "supports only single response cookies service function return value")] } }
  else
    { b with responseCookieParameters := some (fun value =>
        match value with
        | GoValue.cookiesV none => Except.ok []
        | GoValue.cookiesV (some cs) => Except.ok cs
        | _ => Except.error GoPanic.reflectKindMismatch) }

/-- `defineResponseErrorParameters` (`builder.go` lines 561-576): the
configured mapper when present, `DefaultErrorMapper` otherwise. -/
def defineResponseErrorParameters (b : builder) : builder :=
  let hp := hasParametersIn b responseErrorParametersGroup
  if !hp.2 then b
  else if hp.1.length ≠ 1 then
    { b with errors := { b.errors with data := b.errors.data
        ++ [InvalidMappingError
          (GoErr.newErr "mapping of multiple error values of service function return clause is not supported")] } }
  else
    { b with
      responseErrorParameters :=
        some (match b.errorMapper with
          | some m => m
          | none => DefaultErrorMapper) }

/-- `defineProviders` (`builder.go` lines 430-441). -/
def defineProviders (uc : UserConverters) (b : builder) : builder :=
  defineResponseErrorParameters
    (defineResponseCookieParameters
      (defineResponseStatusCodeParameters
        (defineResponseHeaderParameters
          (defineBodyParameters
            (defineCookieParameters
              (defineQueryParameters
                (defineHeaderParameters
                  (definePathParameters uc b))))))))

/-! ## The per-request executor (`builder.go`: `buildProcessRequest` and
`buildProduceResponse`; `endpointprocessor.go`). -/

/-- One request-value collector, as appended to `valueCollectors`. -/
abbrev Collector := Request → Except GoPanic (List GoValue × Option GoErr)

/-- The `valueCollectors` list of `buildProcessRequest` (`builder.go`
lines 623-657): the path collector when compiled, then one collector per
entry of the non-path order vector. -/
def valueCollectors (b : builder) : List Collector :=
  (match b.pathParameters with
   | some f => [fun r => (b.pathValues r.urlPath).map f]
   | none => []) ++
  b.orderOfOtherParameters.data.flatMap (fun group =>
    if group = headerParametersGroup then
      [fun r =>
        match b.headerParameters with
        | some f => Except.ok ([(f r.headers).1], (f r.headers).2)
        | none => Except.error GoPanic.nilFunctionCall]
    else if group = queryParametersGroup then
      [fun r =>
        match b.queryParameters with
        | some f => Except.ok ([(f r.query).1], (f r.query).2)
        | none => Except.error GoPanic.nilFunctionCall]
    else if group = cookieParametersGroup then
      [fun r =>
        match b.cookieParameters with
        | some f => Except.ok ([(f r.cookies).1], (f r.cookies).2)
        | none => Except.error GoPanic.nilFunctionCall]
    else if group = bodyParametersGroup then
      [fun r =>
        match b.bodyParameters with
        | some f => Except.ok ([(f r.body).1], (f r.body).2)
        | none => Except.error GoPanic.nilFunctionCall]
    else [])

/-- The collector fold of the compiled `processRequest` closure: the
first collector error returns `(nil, err)`; otherwise the handler is
invoked on the accumulated argument vector. -/
def processLoop (impl : List GoValue → List GoValue) :
    List Collector → Request → List GoValue →
      Except GoPanic (List GoValue × Option GoErr)
  | [], _, acc => Except.ok (impl acc, none)
  | c :: cs, r, acc =>
      match c r with
      | Except.error p => Except.error p
      | Except.ok (_, some err) => Except.ok ([], some err)
      | Except.ok (values, none) => processLoop impl cs r (acc ++ values)

/-- `buildProcessRequest` (`builder.go` lines 623-671). -/
def buildProcessRequest (b : builder) :
    Request → Except GoPanic (List GoValue × Option GoErr) :=
  fun r =>
    match b.serviceValue with
    | none => Except.error GoPanic.zeroValueHasNoType
    | some f => processLoop f.impl (valueCollectors b) r []

/-- A response resolver: handler results and writer in, updated writer
and resolver error out. -/
abbrev Resolver := List GoValue → RespWriter → Except GoPanic (RespWriter × Option GoErr)

/-- The `Add(header, value[1:])` loop of the response-header resolver;
Go string slicing panics on an empty value. -/
def addAll (name : Str) : List Str → RespWriter → Except GoPanic RespWriter
  | [], w => Except.ok w
  | v :: rest, w =>
      if v.length < 1 then Except.error GoPanic.sliceBounds
      else addAll name rest (w ++ [WEvent.addHeader name (v.drop 1)])

/-- One `(header, values)` entry of the response-header resolver: `Set`
the first value when any, then `Add` every value with its first byte
sliced off (`builder.go` lines 688-695). -/
def setThenAddValues (name : Str) (values : List Str) (w : RespWriter) :
    Except GoPanic RespWriter :=
  let w1 :=
    if 0 < values.length then w ++ [WEvent.setHeader name (values.headD [])] else w
  addAll name values w1

/-- The `range headers` loop of the response-header resolver. -/
def headerPairsLoop : HeaderAList → RespWriter → Except GoPanic RespWriter
  | [], w => Except.ok w
  | (name, values) :: rest, w =>
      match setThenAddValues name values w with
      | Except.error p => Except.error p
      | Except.ok w2 => headerPairsLoop rest w2

/-- The response-header resolver (`buildProduceResponse`, header case). -/
def headerResolver (b : builder) (index : Nat) : Resolver :=
  fun results w =>
    if h : index < results.length then
      match b.responseHeaderParameters with
      | none => Except.error GoPanic.nilFunctionCall
      | some hp =>
          match hp results[index] with
          | Except.error p => Except.error p
          | Except.ok none => Except.ok (w, none)
          | Except.ok (some headers) =>
              match headerPairsLoop headers w with
              | Except.error p => Except.error p
              | Except.ok w2 => Except.ok (w2, none)
    else Except.error GoPanic.indexOutOfRange

/-- The status-code resolver (`buildProduceResponse`, status case). -/
def statusResolver (b : builder) (index : Nat) : Resolver :=
  fun results w =>
    if h : index < results.length then
      match b.responseStatusCodeParameters with
      | none => Except.error GoPanic.nilFunctionCall
      | some f =>
          match f results[index] with
          | Except.error p => Except.error p
          | Except.ok code => Except.ok (w ++ [WEvent.writeHeader code], none)
    else Except.error GoPanic.indexOutOfRange

/-- `http.SetCookie`'s header serialisation, restricted to name=value. -/
def serializeCookie (c : Cookie) : Str := c.name ++ '=' :: c.value

/-- The cookie resolver (`buildProduceResponse`, cookie case). -/
def cookieResolver (b : builder) (index : Nat) : Resolver :=
  fun results w =>
    if h : index < results.length then
      match b.responseCookieParameters with
      | none => Except.error GoPanic.nilFunctionCall
      | some f =>
          match f results[index] with
          | Except.error p => Except.error p
          | Except.ok cs =>
              Except.ok (w ++ cs.map (fun c =>
                WEvent.addHeader ("Set-Cookie".toList) (serializeCookie c)), none)
    else Except.error GoPanic.indexOutOfRange

/-- The body resolver when an encoder is configured: a nil pointer
writes nothing, otherwise the encoder's chunks are written and its error
returned. -/
def encBodyResolver (enc : EncoderFn) (index : Nat) : Resolver :=
  fun results w =>
    if h : index < results.length then
      match results[index] with
      | GoValue.ptrV none => Except.ok (w, none)
      | v =>
          let r := enc v
          Except.ok (w ++ r.1.map WEvent.write, r.2)
    else Except.error GoPanic.indexOutOfRange

/-- The body resolver for a byte-array return without an encoder: the
copy loop writes the array bytes directly. -/
def arrayBodyResolver (index : Nat) : Resolver :=
  fun results w =>
    if h : index < results.length then
      match results[index] with
      | GoValue.bytesV bs => Except.ok (w ++ [WEvent.write bs], none)
      | _ => Except.error GoPanic.reflectKindMismatch
    else Except.error GoPanic.indexOutOfRange

/-- The string/byte-slice body resolvers compiled in the nil-encoder
branch still call `b.encoder(w)`, a nil function: every invocation
panics (`builder.go` lines 730-738). -/
def nilEncoderBodyResolver : Resolver :=
  fun _ _ => Except.error GoPanic.nilFunctionCall

/-- The synthetic ContentType resolver (`buildProduceResponse`). -/
def ctResolver (ct : Str) : Resolver :=
  fun _ w => Except.ok (w ++ [WEvent.setHeader ("Content-Type".toList) ct], none)

/-- The default status resolver pre-seeded in the resolver map: writes
`http.StatusOK` (`builder.go` lines 674-679). -/
def defaultStatusResolver : Resolver :=
  fun _ w => Except.ok (w ++ [WEvent.writeHeader 200], none)

/-- The resolver-map construction loop of `buildProduceResponse`
(`builder.go` lines 682-756), also tracking `errorReturnValueIndex`.
Reading `b.parametersBy[group][0]` in the nil-encoder body branch panics
when the body group is empty. -/
def resolversFold (b : builder) :
    List (Nat × Nat) → List (Nat × Resolver) → Option Nat →
      Except GoPanic (List (Nat × Resolver) × Option Nat)
  | [], m, errIdx => Except.ok (m, errIdx)
  | (index, group) :: rest, m, errIdx =>
      if group = responseHeaderParametersGroup then
        resolversFold b rest (alSet m group (headerResolver b index)) errIdx
      else if group = responseStatusCodeParametersGroup then
        resolversFold b rest (alSet m group (statusResolver b index)) errIdx
      else if group = responseCookieParametersGroup then
        resolversFold b rest (alSet m group (cookieResolver b index)) errIdx
      else if group = responseBodyParametersGroup then
        match b.encoder with
        | some enc => resolversFold b rest (alSet m group (encBodyResolver enc index)) errIdx
        | none =>
            match pmapGet b.parametersBy responseBodyParametersGroup with
            | [] => Except.error GoPanic.indexOutOfRange
            | returnParameterType :: _ =>
                match returnParameterType.kind with
                | GoKind.string =>
                    resolversFold b rest (alSet m group nilEncoderBodyResolver) errIdx
                | GoKind.slice =>
                    resolversFold b rest (alSet m group nilEncoderBodyResolver) errIdx
                | GoKind.array =>
                    resolversFold b rest (alSet m group (arrayBodyResolver index)) errIdx
                | _ => resolversFold b rest m errIdx
      else if group = responseErrorParametersGroup then
        resolversFold b rest m (some index)
      else resolversFold b rest m errIdx

/-- The canonical execution order of `buildProduceResponse`
(`builder.go` lines 765-776). -/
def canonicalResponseOrder : List Nat :=
  [responseContentTypeParametersGroup, responseHeaderParametersGroup,
   responseCookieParametersGroup, responseStatusCodeParametersGroup,
   responseBodyParametersGroup]

/-- `defaultResponseProcessor`'s resolver fold: runs each chosen
resolver in order, stopping at the first resolver error. -/
def runResolvers : List Resolver → List GoValue → RespWriter →
    Except GoPanic (RespWriter × Option GoErr)
  | [], _, w => Except.ok (w, none)
  | res :: rest, results, w =>
      match res results w with
      | Except.error p => Except.error p
      | Except.ok (w2, some e) => Except.ok (w2, some e)
      | Except.ok (w2, none) => runResolvers rest results w2

/-- The signature of a compiled `produceResponse` closure. -/
abbrev ProduceFn :=
  List GoValue → Option GoErr → RespWriter → Request →
    Except GoPanic (RespWriter × Option GoErr)

/-- Installing the synthetic ContentType resolver when a provider is
configured (`builder.go` lines 758-763). -/
def withContentTypeResolver (b : builder) (m : List (Nat × Resolver)) :
    List (Nat × Resolver) :=
  match b.contentTypeProvider with
  | some ct => alSet m responseContentTypeParametersGroup (ctResolver ct)
  | none => m

/-- The `parametersGroup` selection of `buildProduceResponse`
(`builder.go` lines 765-776): the canonical order filtered to the
occupied groups, paired with each group's resolver. -/
def chosenResolvers (b : builder) (rm : List (Nat × Resolver)) : List Resolver :=
  canonicalResponseOrder.filterMap (fun g => (withContentTypeResolver b rm).lookup g)

/-- `defaultResponseProcessor` (`builder.go` lines 778-785): run the
chosen resolvers in canonical order; `executionError` is ignored. -/
def defaultResponseProcessor (b : builder) (rm : List (Nat × Resolver)) : ProduceFn :=
  fun executionResult _ w _ => runResolvers (chosenResolvers b rm) executionResult w

/-- The error-slot wrapper of `buildProduceResponse` (`builder.go` lines
790-797): a nil error return falls through to the default processor, a
non-nil one delegates to the `responseErrorParameters` mapper. -/
def errorWrappedProcessor (b : builder) (rm : List (Nat × Resolver)) (j : Nat) :
    ProduceFn :=
  fun executionResult executionError w r =>
    if h : j < executionResult.length then
      match executionResult[j] with
      | GoValue.errV none =>
          defaultResponseProcessor b rm executionResult executionError w r
      | GoValue.errV (some ge) =>
          match b.responseErrorParameters with
          | some m => Except.ok (m ge w r)
          | none => Except.error GoPanic.nilFunctionCall
      | _ => Except.error GoPanic.typeAssertionFailed
    else Except.error GoPanic.indexOutOfRange

/-- `buildProduceResponse` (`builder.go` lines 673-798).  The map starts
with the default status resolver, the declaration loop may replace it,
the ContentType resolver joins when configured, and a declared error
slot wraps the default processor with the error-mapper dispatch. -/
def buildProduceResponse (b : builder) : Except GoPanic ProduceFn :=
  match resolversFold b (b.orderOfResponseParameters.data.enum)
      [(responseStatusCodeParametersGroup, defaultStatusResolver)] none with
  | Except.error p => Except.error p
  | Except.ok rf =>
      match rf.2 with
      | none => Except.ok (defaultResponseProcessor b rf.1)
      | some errorReturnValueIndex =>
          Except.ok (errorWrappedProcessor b rf.1 errorReturnValueIndex)

/-- The `EndpointProcessor` struct (`endpointprocessor.go`): `errors` is
`none` for Go's nil slice. -/
structure EndpointProcessor where
  errors : Option (List GoErr)
  processRequest : Request → Except GoPanic (List GoValue × Option GoErr)
  produceResponse : ProduceFn

/-- `EndpointProcessor.Handle` (`endpointprocessor.go` lines 14-20):
non-nil build errors surface `errors[0]` (a panic when, unreachably via
`Build`, the non-nil list is empty); otherwise run the request processor
and feed both results into the response producer. -/
def EndpointProcessor.Handle (ep : EndpointProcessor) (w : RespWriter) (r : Request) :
    Except GoPanic (RespWriter × Option GoErr) :=
  match ep.errors with
  | some [] => Except.error GoPanic.indexOutOfRange
  | some (e :: _) => Except.ok (w, some e)
  | none =>
      match ep.processRequest r with
      | Except.error p => Except.error p
      | Except.ok (results, err) => ep.produceResponse results err w r

/-- `builder.Build` (`builder.go` lines 605-621): asking the zero
`reflect.Value` for its type panics when no handler function was stored;
otherwise classification, provider compilation, and either the poisoned
processor (with stub closures) or the compiled one. -/
def Build (uc : UserConverters) (b : builder) : Except GoPanic EndpointProcessor :=
  match b.serviceValue with
  | none => Except.error GoPanic.zeroValueHasNoType
  | some f =>
      let b1 := groupRequestPathParameters b f
      match groupRequestOtherParameters b1 f with
      | Except.error p => Except.error p
      | Except.ok b2 =>
          match groupResponseParameters b2 f with
          | Except.error p => Except.error p
          | Except.ok b3 =>
              let b4 := defineProviders uc b3
              if 0 < b4.errors.data.length then
                Except.ok
                  { errors := some b4.errors.data
                    processRequest := fun _ => Except.ok ([], none)
                    produceResponse := fun _ _ w _ => Except.ok (w, none) }
              else
                match buildProduceResponse b4 with
                | Except.error p => Except.error p
                | Except.ok produce =>
                    Except.ok
                      { errors := none
                        processRequest := buildProcessRequest b4
                        produceResponse := produce }

/-- Replay the final value list of one header name from a writer trace
(`Set` replaces, `Add` appends), for stating header-shape claims. -/
def headerValues (w : RespWriter) (name : Str) : List Str :=
  w.foldl (fun acc ev =>
    match ev with
    | WEvent.setHeader n v => if n = name then [v] else acc
    | WEvent.addHeader n v => if n = name then acc ++ [v] else acc
    | _ => acc) []

/-! ## Claim theorems and witnesses. -/

/-- A trivial user-converter environment for concrete endpoints whose
handlers declare no `PathParameterConverter` types. -/
def ucDefault : UserConverters := fun _ _ => Except.ok (GoValue.str [])

/-- Fallback processor for total extraction of `Build`'s ok value in
concrete witnesses (never reached there). -/
def fallbackEP : EndpointProcessor :=
  { errors := some []
    processRequest := fun _ => Except.ok ([], none)
    produceResponse := fun _ _ w _ => Except.ok (w, none) }

/-- Total extraction of `Build`'s result for concrete witnesses. -/
def builtEP (uc : UserConverters) (b : builder) : EndpointProcessor :=
  match Build uc b with
  | Except.ok ep => ep
  | Except.error _ => fallbackEP

/-- An empty concrete request shared by concrete endpoint runs. -/
def reqEmpty : Request :=
  { urlPath := ("/x".toList), query := [], headers := [], cookies := [], body := none }

/-- C1: for every `EndpointProcessor` produced by `Build` with a
non-empty build-error list, every `Handle(writer, request)` invocation
returns the first build error, independently of the request-processing
and response-producing closures (neither runs: swapping in arbitrary
closures cannot change the result), and the writer trace is unchanged
(nothing is written to the response). -/
theorem c1_poisoned_handle_returns_first_error
    (uc : UserConverters) (b : builder) (ep : EndpointProcessor)
    (_hB : Build uc b = Except.ok ep) (e : GoErr) (es : List GoErr)
    (hE : ep.errors = some (e :: es)) :
    ∀ (f : Request → Except GoPanic (List GoValue × Option GoErr)) (g : ProduceFn)
      (w : RespWriter) (r : Request),
      EndpointProcessor.Handle ⟨ep.errors, f, g⟩ w r = Except.ok (w, some e) := by
  intro f g w r
  rw [EndpointProcessor.Handle, hE]

/-- Handler with two header-map inputs: classification records a
duplicate-group error, so `Build` poisons the processor. -/
def hdlDupHeaders : GoFunc :=
  { ins := [headersType, headersType], outs := [], impl := fun _ => [] }

/-- Concrete poisoned endpoint for the C1 witness. -/
def bldC1 : builder := ((GET ("/w".toList)).Handler (ServiceArg.fn hdlDupHeaders) 3).1

/-- The first (only) build error of `bldC1`. -/
def errC1 : GoErr :=
  InvalidMappingError
    (GoErr.newErr "unable do mapping of headers to more than 1 parameter in service function")

theorem c1_witness :
    EndpointProcessor.Handle
      ⟨(builtEP ucDefault bldC1).errors,
        (fun _ => Except.error GoPanic.nilFunctionCall),
        (fun _ _ _ _ => Except.error GoPanic.nilFunctionCall)⟩
      [] reqEmpty
    = Except.ok ([], some errC1) :=
  c1_poisoned_handle_returns_first_error ucDefault bldC1 (builtEP ucDefault bldC1)
    (by rfl) errC1 [] (by rfl)
    (fun _ => Except.error GoPanic.nilFunctionCall)
    (fun _ _ _ _ => Except.error GoPanic.nilFunctionCall)
    [] reqEmpty

/-- C10: calling `Build` on a builder whose `serviceValue` was never set
by a `Handler` call with a function value panics (the zero
`reflect.Value` has no type) instead of producing a poisoned
`EndpointProcessor`; in particular, `Handler` with a non-function
argument records an `InvalidMapping` error but leaves `serviceValue`
unset, so the subsequent `Build` still panics. -/
theorem c10_build_without_handler_panics
    (uc : UserConverters) (b : builder) (h : b.serviceValue = none) :
    Build uc b = Except.error GoPanic.zeroValueHasNoType ∧
    ∀ (t : GoType) (alloc : Nat),
      ((b.Handler (ServiceArg.nonFn t) alloc).1).serviceValue = none ∧
      ((b.Handler (ServiceArg.nonFn t) alloc).1).errors.data
        = b.errors.data
          ++ [InvalidMappingError (GoErr.newErr "handler is not a function/method")] ∧
      Build uc ((b.Handler (ServiceArg.nonFn t) alloc).1)
        = Except.error GoPanic.zeroValueHasNoType := by
  constructor
  · rw [Build, h]
  · intro t alloc
    have hs : ((b.Handler (ServiceArg.nonFn t) alloc).1).serviceValue = none := h
    refine ⟨hs, rfl, ?_⟩
    rw [Build, hs]

theorem c10_witness :
    Build ucDefault (GET ("/x".toList)) = Except.error GoPanic.zeroValueHasNoType ∧
    Build ucDefault
        (((GET ("/x".toList)).Handler (ServiceArg.nonFn httpStatusType) 3).1)
      = Except.error GoPanic.zeroValueHasNoType :=
  ⟨(c10_build_without_handler_panics ucDefault (GET ("/x".toList)) rfl).1,
   ((c10_build_without_handler_panics ucDefault (GET ("/x".toList)) rfl).2
      httpStatusType 3).2.2⟩

/-- C5: for every path template with `k` occurrences of the `/:`
sentinel, the offset computation returns exactly `k` offsets; and for
every request path whose separator structure matches the template (it is
the template with each parameter segment replaced by a slash-free
value), extraction by those offsets yields exactly the `k` substituted
values. -/
theorem c5_offsets_and_extraction_count (templ : Str) :
    (pathValueSegmentOffsets templ).length = countPathSentinel templ ∧
    ∀ (vs : List Str), vs.length = countPathSentinel templ →
      (∀ v ∈ vs, ('/' : Char) ∉ v) →
      pathValuesByOffsets (pathValueSegmentOffsets templ) (substTemplate templ vs)
        = Except.ok vs := by
  refine ⟨pathValueSegmentOffsets_length templ, ?_⟩
  intro vs hlen hnos
  have hlen' : vs.length = (pathValueSegmentOffsets templ).length := by
    rw [pathValueSegmentOffsets_length templ]
    exact hlen
  exact subst_extract_aux templ.length templ vs (Nat.le_refl _) hlen' hnos

theorem c5_witness :
    (pathValueSegmentOffsets ("/a/:x/b/:y".toList)).length
        = countPathSentinel ("/a/:x/b/:y".toList) ∧
    countPathSentinel ("/a/:x/b/:y".toList) = 2 ∧
    pathValuesByOffsets (pathValueSegmentOffsets ("/a/:x/b/:y".toList))
        (substTemplate ("/a/:x/b/:y".toList) [("7".toList), ("zz".toList)])
      = Except.ok [("7".toList), ("zz".toList)] :=
  ⟨(c5_offsets_and_extraction_count ("/a/:x/b/:y".toList)).1,
   by decide,
   (c5_offsets_and_extraction_count ("/a/:x/b/:y".toList)).2
     [("7".toList), ("zz".toList)] (by decide) (by decide)⟩

theorem buildProduceResponse_fold_some (b : builder)
    (rm : List (Nat × Resolver)) (j : Nat)
    (hFold : resolversFold b (b.orderOfResponseParameters.data.enum)
        [(responseStatusCodeParametersGroup, defaultStatusResolver)] none
      = Except.ok (rm, some j)) :
    buildProduceResponse b = Except.ok (errorWrappedProcessor b rm j) := by
  rw [buildProduceResponse, hFold]

/-- C3: when the handler declares an error output slot
(`errorReturnValueIndex` is set by the resolver-construction fold) and
the invocation's error return value is non-nil, `Handle` delegates
entirely to the configured error mapper: the produced response is
exactly the mapper's writer effects, no other resolver runs, and the
mapper's own return value is the `Handle` result.  When no mapper is
configured, `defineResponseErrorParameters` installs
`DefaultErrorMapper`, which writes status 500 and the error's message. -/
theorem c3_error_slot_delegates_to_mapper
    (b : builder) (rm : List (Nat × Resolver)) (j : Nat)
    (hFold : resolversFold b (b.orderOfResponseParameters.data.enum)
        [(responseStatusCodeParametersGroup, defaultStatusResolver)] none
      = Except.ok (rm, some j))
    (m : ErrorMapperFn) (hm : b.responseErrorParameters = some m) :
    (∀ pf, buildProduceResponse b = Except.ok pf →
      ∀ (results : List GoValue) (ge : GoErr) (hlt : j < results.length),
        results[j] = GoValue.errV (some ge) →
        ∀ (err0 : Option GoErr) (w : RespWriter) (r : Request),
          pf results err0 w r = Except.ok (m ge w r) ∧
          ∀ (pr : Request → Except GoPanic (List GoValue × Option GoErr)),
            pr r = Except.ok (results, err0) →
            EndpointProcessor.Handle ⟨none, pr, pf⟩ w r = Except.ok (m ge w r)) ∧
    (∀ b' : builder,
      (hasParametersIn b' responseErrorParametersGroup).2 = true →
      (hasParametersIn b' responseErrorParametersGroup).1.length = 1 →
      b'.errorMapper = none →
      (defineResponseErrorParameters b').responseErrorParameters
        = some DefaultErrorMapper) ∧
    (∀ (ge : GoErr) (w : RespWriter) (r : Request),
      DefaultErrorMapper ge w r
        = (w ++ [WEvent.setHeader ("Content-Type".toList) ("text/plain; charset=utf-8".toList),
                 WEvent.setHeader ("X-Content-Type-Options".toList) ("nosniff".toList),
                 WEvent.writeHeader 500,
                 WEvent.write (strBytes ((ge.errorString).toList ++ ['\n']))],
           none)) := by
  refine ⟨?_, ?_, fun ge w r => rfl⟩
  · intro pf hP results ge hlt hv err0 w r
    have hP2 := buildProduceResponse_fold_some b rm j hFold
    rw [hP] at hP2
    injection hP2 with hpf
    subst hpf
    have hfirst : errorWrappedProcessor b rm j results err0 w r = Except.ok (m ge w r) := by
      rw [errorWrappedProcessor]
      rw [dif_pos hlt, hv, hm]
    refine ⟨hfirst, ?_⟩
    intro pr hpr
    show (match pr r with
          | Except.error p => Except.error p
          | Except.ok (results, err) => errorWrappedProcessor b rm j results err w r)
        = Except.ok (m ge w r)
    rw [hpr]
    exact hfirst
  · intro b' h1 h2 h3
    rw [defineResponseErrorParameters]
    rw [h1]
    simp only [Bool.not_true, Bool.false_eq_true, if_false, h2, h3]
    split
    · rename_i hcon
      exact absurd h2 (by omega)
    · rfl

/-- A concrete custom error mapper for the C3 witness: writes 418 and
returns the error itself. -/
def mapC3 : ErrorMapperFn := fun ge w _ => (w ++ [WEvent.writeHeader 418], some ge)

/-- Concrete builder with one declared error output slot and the custom
mapper installed. -/
def bldC3 : builder :=
  { GET ("/z".toList) with
    orderOfResponseParameters := ⟨2, [responseErrorParametersGroup]⟩
    responseErrorParameters := some mapC3 }

/-- The resolver map the fold produces for `bldC3` (just the pre-seeded
default status resolver). -/
def rmC3 : List (Nat × Resolver) :=
  [(responseStatusCodeParametersGroup, defaultStatusResolver)]

/-- The C3 error value. -/
def geC3 : GoErr := GoErr.newErr "boom"

theorem c3_witness :
    errorWrappedProcessor bldC3 rmC3 0 [GoValue.errV (some geC3)] none [] reqEmpty
      = Except.ok (([WEvent.writeHeader 418] : RespWriter), some geC3) :=
  ((c3_error_slot_delegates_to_mapper bldC3 rmC3 0 rfl mapC3 rfl).1
    (errorWrappedProcessor bldC3 rmC3 0) rfl
    [GoValue.errV (some geC3)] geC3 (by decide) rfl none [] reqEmpty).1

/-! ## Trace shapes of the response resolvers (claim C4). -/

/-- Header-level writer events (Set/Add on the header map). -/
def WEvent.isHeaderish : WEvent → Bool
  | WEvent.setHeader _ _ => true
  | WEvent.addHeader _ _ => true
  | _ => false

/-- Body-byte writer events. -/
def WEvent.isWrite : WEvent → Bool
  | WEvent.write _ => true
  | _ => false

/-- A resolver that, on success, returns no error and only appends
header-level events. -/
def HeaderishResolver (res : Resolver) : Prop :=
  ∀ results w w2 e2, res results w = Except.ok (w2, e2) →
    e2 = none ∧ ∃ evs, w2 = w ++ evs ∧ ∀ ev ∈ evs, ev.isHeaderish = true

/-- A resolver that, on success, returns no error and appends exactly
one status-line write. -/
def StatusOneResolver (res : Resolver) : Prop :=
  ∀ results w w2 e2, res results w = Except.ok (w2, e2) →
    e2 = none ∧ ∃ code, w2 = w ++ [WEvent.writeHeader code]

/-- A resolver that, on success, only appends body-byte writes. -/
def BodyishResolver (res : Resolver) : Prop :=
  ∀ results w w2 e2, res results w = Except.ok (w2, e2) →
    ∃ evs, w2 = w ++ evs ∧ ∀ ev ∈ evs, ev.isWrite = true

theorem ctResolver_headerish (ct : Str) : HeaderishResolver (ctResolver ct) := by
  intro results w w2 e2 h
  injection h with h
  injection h with h1 h2
  refine ⟨h2.symm, [WEvent.setHeader ("Content-Type".toList) ct], h1.symm, ?_⟩
  intro ev hev
  rcases List.mem_singleton.mp hev with rfl
  rfl

theorem cookieResolver_headerish (b : builder) (i : Nat) :
    HeaderishResolver (cookieResolver b i) := by
  intro results w w2 e2 h
  rw [cookieResolver] at h
  split at h
  · split at h
    · cases h
    · split at h
      · cases h
      · rename_i cs _
        injection h with h
        injection h with h1 h2
        refine ⟨h2.symm, cs.map (fun c =>
          WEvent.addHeader ("Set-Cookie".toList) (serializeCookie c)), h1.symm, ?_⟩
        intro ev hev
        obtain ⟨c, _, rfl⟩ := List.mem_map.mp hev
        rfl
  · cases h

theorem lookup_alSet {α : Type} (m : List (Nat × α)) (g : Nat) (x : α) (k : Nat) :
    (alSet m g x).lookup k = if k = g then some x else m.lookup k := by
  induction m with
  | nil =>
      by_cases hk : k = g
      · simp [alSet, List.lookup, hk]
      · have hbeq : (k == g) = false := beq_eq_false_iff_ne.mpr hk
        simp [alSet, List.lookup, hk, hbeq]
  | cons p rest ih =>
      obtain ⟨kk, vv⟩ := p
      rw [alSet]
      split
      · rename_i hkg
        subst hkg
        by_cases hk : k = kk
        · subst hk
          simp [List.lookup]
        · have hbeq : (k == kk) = false := beq_eq_false_iff_ne.mpr hk
          simp [List.lookup, hk, hbeq]
      · rename_i hkg
        by_cases hk : k = kk
        · subst hk
          have hkg2 : ¬ (k = g) := fun hc => hkg hc
          simp [List.lookup, hkg2]
        · have hbeq : (k == kk) = false := beq_eq_false_iff_ne.mpr hk
          simp [List.lookup, hbeq, ih]

theorem runResolvers_body (results : List GoValue) :
    ∀ (L2 : List Resolver) (w w2 : RespWriter) (e2 : Option GoErr),
      (∀ res ∈ L2, BodyishResolver res) →
      runResolvers L2 results w = Except.ok (w2, e2) →
      ∃ bs, w2 = w ++ bs ∧ ∀ ev ∈ bs, ev.isWrite = true := by
  intro L2
  induction L2 with
  | nil =>
      intro w w2 e2 _ h
      injection h with h
      have hw : w = w2 := congrArg Prod.fst h
      exact ⟨[], by simp [hw.symm]⟩
  | cons res rest ih =>
      intro w w2 e2 hall h
      rw [runResolvers] at h
      split at h
      · cases h
      · rename_i w' e' hres
        injection h with h
        have hw : w' = w2 := congrArg Prod.fst h
        obtain ⟨evs, hevs, hwr⟩ :=
          hall res (List.mem_cons_self res rest) results w w' (some e') hres
        exact ⟨evs, hw ▸ hevs, hwr⟩
      · rename_i w' hres
        obtain ⟨evs, hevs, hwr⟩ :=
          hall res (List.mem_cons_self res rest) results w w' none hres
        obtain ⟨bs, hbs, hbw⟩ :=
          ih w' w2 e2 (fun r hr => hall r (List.mem_cons_of_mem res hr)) h
        refine ⟨evs ++ bs, ?_, ?_⟩
        · rw [hbs, hevs, List.append_assoc]
        · intro ev hev
          rcases List.mem_append.mp hev with hm | hm
          · exact hwr ev hm
          · exact hbw ev hm

theorem runResolvers_decomp (results : List GoValue) :
    ∀ (L1 : List Resolver) (st : Resolver) (L2 : List Resolver)
      (w w2 : RespWriter) (e2 : Option GoErr),
      (∀ res ∈ L1, HeaderishResolver res) → StatusOneResolver st →
      (∀ res ∈ L2, BodyishResolver res) →
      runResolvers (L1 ++ st :: L2) results w = Except.ok (w2, e2) →
      ∃ hs code bs, w2 = (w ++ hs) ++ WEvent.writeHeader code :: bs ∧
        (∀ ev ∈ hs, ev.isHeaderish = true) ∧ (∀ ev ∈ bs, ev.isWrite = true) := by
  intro L1
  induction L1 with
  | nil =>
      intro st L2 w w2 e2 _ hst hL2 h
      rw [List.nil_append, runResolvers] at h
      split at h
      · cases h
      · rename_i w' e' hres
        obtain ⟨he', _⟩ := hst results w w' (some e') hres
        cases he'
      · rename_i w' hres
        obtain ⟨_, code, hw'⟩ := hst results w w' none hres
        obtain ⟨bs, hbs, hbw⟩ := runResolvers_body results L2 w' w2 e2 hL2 h
        refine ⟨[], code, bs, ?_, by simp, hbw⟩
        rw [hbs, hw', List.append_nil, List.append_assoc]
        rfl
  | cons res L1' ih =>
      intro st L2 w w2 e2 hL1 hst hL2 h
      rw [List.cons_append, runResolvers] at h
      split at h
      · cases h
      · rename_i w' e' hres
        obtain ⟨he', _⟩ :=
          hL1 res (List.mem_cons_self res L1') results w w' (some e') hres
        cases he'
      · rename_i w' hres
        obtain ⟨_, evs, hw', hevh⟩ :=
          hL1 res (List.mem_cons_self res L1') results w w' none hres
        obtain ⟨hs, code, bs, hdec, hhs, hbw⟩ :=
          ih st L2 w' w2 e2 (fun r hr => hL1 r (List.mem_cons_of_mem res hr)) hst hL2 h
        refine ⟨evs ++ hs, code, bs, ?_, ?_, hbw⟩
        · rw [hdec, hw']
          simp [List.append_assoc]
        · intro ev hev
          rcases List.mem_append.mp hev with hm | hm
          · exact hevh ev hm
          · exact hhs ev hm

/-- A request-body type (any non-sentinel type classifies as body). -/
def bodyTypeC2 : GoType :=
  { name := "sliceFilter", kind := GoKind.slice, elemKind := some GoKind.string }

/-- The C2 decoder error. -/
def errC2 : GoErr := GoErr.newErr "bad syntax"

/-- A decoder that always fails (a malformed request body). -/
def decoderC2 : DecoderFn := fun _ t => (zeroValue t, some errC2)

/-- Handler with one body input and no outputs. -/
def hdlC2 : GoFunc := { ins := [bodyTypeC2], outs := [], impl := fun _ => [] }

/-- Concrete endpoint whose only provider (the body decoder) fails. -/
def bldC2 : builder :=
  (((POST ("/x".toList)).Decoder decoderC2 3).1.Handler (ServiceArg.fn hdlC2) 4).1

/-- A request carrying a body for `bldC2`. -/
def reqC2 : Request :=
  { urlPath := ("/x".toList), query := [], headers := [], cookies := [],
    body := some [91, 93] }

/-- C2 (counter-evaluation): on this endpoint the body provider fails,
`processRequest` short-circuits with the decoder error (the handler is
not invoked), and yet `Handle` does NOT return that error: the error is
passed to `produceResponse` as the never-read `executionError`, the
default status resolver still writes HTTP 200, and `Handle` returns
nil.  This contradicts the claim that `Handle` returns the provider
error to the caller and writes no response. -/
theorem c2_provider_error_swallowed :
    (builtEP ucDefault bldC2).processRequest reqC2 = Except.ok ([], some errC2) ∧
    EndpointProcessor.Handle (builtEP ucDefault bldC2) [] reqC2
      = Except.ok (([WEvent.writeHeader 200] : RespWriter), none) :=
  ⟨rfl, rfl⟩

/-- Handler returning one header map with a two-valued header. -/
def hdlC6 : GoFunc :=
  { ins := [], outs := [headersType],
    impl := fun _ =>
      [GoValue.headerV (some [(("H1".toList), [("v1".toList), ("v2".toList)])])] }

/-- Concrete endpoint for the header-resolver evaluation. -/
def bldC6 : builder := ((POST ("/y".toList)).Handler (ServiceArg.fn hdlC6) 3).1

/-- The writer trace `bldC6`'s endpoint produces. -/
def traceC6 : RespWriter :=
  [WEvent.setHeader ("H1".toList) ("v1".toList),
   WEvent.addHeader ("H1".toList) ("1".toList),
   WEvent.addHeader ("H1".toList) ("2".toList),
   WEvent.writeHeader 200]

/-- C6 (counter-evaluation): for the handler returning
`{H1: [v1, v2]}` the resolver Sets `v1` and then Adds `value[1:]` for
EVERY value (including the first), so the response carries
`[v1, 1, 2]` for `H1` — not the returned `[v1, v2]` the claim states
("adds the remaining values unchanged"). -/
theorem c6_header_resolver_slices_added_values :
    EndpointProcessor.Handle (builtEP ucDefault bldC6) [] reqEmpty
      = Except.ok (traceC6, none) ∧
    headerValues traceC6 ("H1".toList)
      = [("v1".toList), ("1".toList), ("2".toList)] ∧
    headerValues traceC6 ("H1".toList) ≠ [("v1".toList), ("v2".toList)] :=
  ⟨rfl, rfl, by decide⟩

/-! ## Classification-error accumulation (claims C7 and C8). -/

theorem pmapAppend_some (mm : PMap) (g : Nat) (t : GoType) :
    pmapAppend (some mm) g t
      = Except.ok (some { mm with
          entries := alSet mm.entries g (((mm.entries.lookup g).getD []) ++ [t]) }) := rfl

theorem pmapGet_pmapAppend (mm : PMap) (g : Nat) (t : GoType) (m2 : Option PMap)
    (h : pmapAppend (some mm) g t = Except.ok m2) (k : Nat) :
    pmapGet m2 k
      = if k = g then pmapGet (some mm) k ++ [t] else pmapGet (some mm) k := by
  rw [pmapAppend_some] at h
  injection h with h
  subst h
  show ((alSet mm.entries g (((mm.entries.lookup g).getD []) ++ [t])).lookup k).getD [] = _
  rw [lookup_alSet]
  by_cases hk : k = g
  · subst hk
    simp [pmapGet]
  · simp [pmapGet, hk]

theorem pmapAppend_isSome (mm : PMap) (g : Nat) (t : GoType) (m2 : Option PMap)
    (h : pmapAppend (some mm) g t = Except.ok m2) : m2.isSome = true := by
  rw [pmapAppend_some] at h
  injection h with h
  subst h
  rfl

theorem isInvalidMapping_wrap (c : GoErr) :
    (InvalidMappingError c).isInvalidMappingErr = true := by
  simp [InvalidMappingError, GoErr.isInvalidMappingErr]

theorem isUnsupportedType_wrap (c : GoErr) :
    (UnsupportedTypeError c).isUnsupportedTypeErr = true := by
  simp [UnsupportedTypeError, GoErr.isUnsupportedTypeErr]

/-- The non-path group of a parameter is always one of the four
non-path request groups. -/
theorem otherGroup_mem (t : GoType) :
    (otherGroupAndMsg t).1 = headerParametersGroup
      ∨ (otherGroupAndMsg t).1 = queryParametersGroup
      ∨ (otherGroupAndMsg t).1 = cookieParametersGroup
      ∨ (otherGroupAndMsg t).1 = bodyParametersGroup := by
  rw [otherGroupAndMsg]
  split
  · exact Or.inl rfl
  · split
    · exact Or.inr (Or.inl rfl)
    · split
      · exact Or.inr (Or.inr (Or.inl rfl))
      · exact Or.inr (Or.inr (Or.inr rfl))

/-- If the remaining non-path parameters contain either a parameter
whose group is already occupied or two parameters of the same group,
the `addToGroup` loop stops at the first duplicate and appends exactly
one `InvalidMapping` error. -/
theorem otherParamsLoop_dup :
    ∀ (ts : List GoType) (pb : Option PMap) (ord : List Nat) (errs : List GoErr),
      pb.isSome = true →
      ((∃ t ∈ ts, 0 < (pmapGet pb (otherGroupAndMsg t).1).length) ∨
       (∃ i j, ∃ hi : i < ts.length, ∃ hj : j < ts.length, i < j ∧
          (otherGroupAndMsg ts[i]).1 = (otherGroupAndMsg ts[j]).1)) →
      ∃ pb2 ord2 m, otherParamsLoop pb ord errs ts
          = Except.ok (pb2, ord2, errs ++ [m]) ∧ m.isInvalidMappingErr = true
        ∧ pb2.isSome = true := by
  intro ts
  induction ts with
  | nil =>
      intro pb ord errs _ hd
      rcases hd with ⟨t, ht, _⟩ | ⟨i, j, hi, _, _, _⟩
      · cases ht
      · cases hi
  | cons t rest ih =>
      intro pb ord errs hsome hd
      rw [otherParamsLoop]
      by_cases hdup : 0 < (pmapGet pb (otherGroupAndMsg t).1).length
      · rw [if_pos hdup]
        exact ⟨pb, ord, InvalidMappingError (GoErr.newErr (otherGroupAndMsg t).2), rfl,
          isInvalidMapping_wrap _, hsome⟩
      · rw [if_neg hdup]
        obtain ⟨mm, rfl⟩ := Option.isSome_iff_exists.mp hsome
        rw [pmapAppend_some]
        apply ih
        · rfl
        · -- push the duplicate evidence past this append
          have happ := pmapGet_pmapAppend mm (otherGroupAndMsg t).1 t _
            (pmapAppend_some mm (otherGroupAndMsg t).1 t)
          rcases hd with ⟨t', ht', hgt'⟩ | ⟨i, j, hi, hj, hij, hg⟩
          · rcases List.mem_cons.mp ht' with rfl | hmem
            · exact absurd hgt' hdup
            · left
              refine ⟨t', hmem, ?_⟩
              rw [happ]
              split
              · simp only [List.length_append, List.length_cons, List.length_nil]
                omega
              · exact hgt'
          · cases i with
            | zero =>
                left
                obtain ⟨j', rfl⟩ : ∃ j', j = j' + 1 := ⟨j - 1, by omega⟩
                have hj1 : j' < rest.length := by
                  simp only [List.length_cons] at hj
                  omega
                refine ⟨rest[j'], List.getElem_mem hj1, ?_⟩
                rw [happ]
                have hgg : (otherGroupAndMsg rest[j']).1 = (otherGroupAndMsg t).1 := by
                  have hjg : (t :: rest)[j' + 1] = rest[j'] := rfl
                  have ht0 : (t :: rest)[0] = t := rfl
                  rw [← hjg, ← hg, ht0]
                rw [if_pos hgg]
                simp only [List.length_append, List.length_cons, List.length_nil]
                omega
            | succ i' =>
                right
                obtain ⟨j', rfl⟩ : ∃ j', j = j' + 1 := ⟨j - 1, by omega⟩
                have hi1 : i' < rest.length := by
                  simp only [List.length_cons] at hi
                  omega
                have hj1 : j' < rest.length := by
                  simp only [List.length_cons] at hj
                  omega
                refine ⟨i', j', hi1, hj1, by omega, ?_⟩
                have hig : (t :: rest)[i' + 1] = rest[i'] := rfl
                have hjg : (t :: rest)[j' + 1] = rest[j'] := rfl
                rw [← hig, ← hjg]
                exact hg

/-- The path phase (given enough handler inputs) installs a fresh
classification map whose non-path groups are empty, and appends only
`UnsupportedType` errors. -/
theorem pathPhase_parametersBy (b : builder) (f : GoFunc)
    (hge : b.pathParamsAmount ≤ f.ins.length) :
    (groupRequestPathParameters b f).parametersBy.isSome = true ∧
    (∀ g, g ≠ pathParametersGroup →
      pmapGet (groupRequestPathParameters b f).parametersBy g = []) := by
  rw [groupRequestPathParameters, if_neg (by omega)]
  refine ⟨rfl, ?_⟩
  intro g hg
  have hbeq : (g == pathParametersGroup) = false :=
    beq_eq_false_iff_ne.mpr hg
  show ((match (pathParamsScan (f.ins.take b.pathParamsAmount)).1 with
        | [] => ([] : List (Nat × List GoType))
        | ts => [(pathParametersGroup, ts)]).lookup g).getD [] = []
  cases hscan : (pathParamsScan (f.ins.take b.pathParamsAmount)).1 with
  | nil => rfl
  | cons t ts =>
      show (([(pathParametersGroup, t :: ts)] : List (Nat × List GoType)).lookup g).getD []
          = []
      simp [List.lookup, hbeq]

/-- The output-classification loop never panics on a live map and only
appends to the error list. -/
theorem responseParamsLoop_ok :
    ∀ (ts : List GoType) (pb : Option PMap) (ord : List Nat) (errs : List GoErr),
      pb.isSome = true →
      ∃ pb2 ord2 extra,
        responseParamsLoop pb ord errs ts = Except.ok (pb2, ord2, errs ++ extra) ∧
        pb2.isSome = true := by
  intro ts
  induction ts with
  | nil =>
      intro pb ord errs hsome
      exact ⟨pb, ord, [], by rw [responseParamsLoop, List.append_nil], hsome⟩
  | cons t rest ih =>
      intro pb ord errs hsome
      obtain ⟨mm, rfl⟩ := Option.isSome_iff_exists.mp hsome
      rw [responseParamsLoop]
      by_cases h1 : t = headersType
      · rw [if_pos h1, pmapAppend_some]
        exact ih _ _ _ rfl
      · rw [if_neg h1]
        by_cases h2 : t = cookiesType
        · rw [if_pos h2, pmapAppend_some]
          exact ih _ _ _ rfl
        · rw [if_neg h2]
          by_cases h3 : t = httpStatusType
          · rw [if_pos h3]
            by_cases h3d : 0 < (pmapGet (some mm) responseStatusCodeParametersGroup).length
            · rw [if_pos h3d]
              exact ⟨some mm, ord, _, rfl, rfl⟩
            · rw [if_neg h3d, pmapAppend_some]
              exact ih _ _ _ rfl
          · rw [if_neg h3]
            by_cases h4 : t.implsError = true
            · rw [if_pos h4]
              by_cases h4d : 0 < (pmapGet (some mm) responseErrorParametersGroup).length
              · rw [if_pos h4d]
                exact ⟨some mm, ord, _, rfl, rfl⟩
              · rw [if_neg h4d, pmapAppend_some]
                exact ih _ _ _ rfl
            · rw [if_neg h4, pmapAppend_some]
              by_cases h5d : 0 < (pmapGet (some mm) responseBodyParametersGroup).length
              · rw [if_pos h5d]
                obtain ⟨pb2, ord2, extra, hrec, hs2⟩ :=
                  ih (some { mm with entries := alSet mm.entries responseBodyParametersGroup (((mm.entries.lookup responseBodyParametersGroup).getD []) ++ [t]) }) (ord ++ [responseBodyParametersGroup]) (errs ++ [InvalidMappingError (GoErr.newErr "unable to map body to multiple response entities")]) rfl
                refine ⟨pb2, ord2,
                  InvalidMappingError
                    (GoErr.newErr "unable to map body to multiple response entities") :: extra,
                  ?_, hs2⟩
                show responseParamsLoop (some { mm with entries := alSet mm.entries responseBodyParametersGroup (((mm.entries.lookup responseBodyParametersGroup).getD []) ++ [t]) }) (ord ++ [responseBodyParametersGroup]) (errs ++ [InvalidMappingError (GoErr.newErr "unable to map body to multiple response entities")]) rest = Except.ok (pb2, ord2, errs ++ (InvalidMappingError (GoErr.newErr "unable to map body to multiple response entities") :: extra))
                rw [hrec, List.append_assoc]
                rfl
              · rw [if_neg h5d]
                exact ih _ _ _ rfl

/-- The error list of `b2` extends that of `b1` (errors only accumulate). -/
def errsExtends (b1 b2 : builder) : Prop :=
  ∃ extra, b2.errors.data = b1.errors.data ++ extra

theorem errsExtends_refl (b : builder) : errsExtends b b :=
  ⟨[], (List.append_nil _).symm⟩

theorem errsExtends_trans {b1 b2 b3 : builder}
    (h12 : errsExtends b1 b2) (h23 : errsExtends b2 b3) : errsExtends b1 b3 := by
  obtain ⟨e1, h1⟩ := h12
  obtain ⟨e2, h2⟩ := h23
  exact ⟨e1 ++ e2, by rw [h2, h1, List.append_assoc]⟩

theorem definePathParameters_errsExt (uc : UserConverters) (b : builder) :
    errsExtends b (definePathParameters uc b) := by
  rw [definePathParameters]
  split
  · exact errsExtends_refl b
  · split
    · exact ⟨_, rfl⟩
    · split
      · exact errsExtends_refl b
      · exact ⟨[], (List.append_nil _).symm⟩

theorem defineHeaderParameters_errsExt (b : builder) :
    errsExtends b (defineHeaderParameters b) := by
  rw [defineHeaderParameters]
  split
  · exact errsExtends_refl b
  · exact ⟨[], (List.append_nil _).symm⟩

theorem defineQueryParameters_errsExt (b : builder) :
    errsExtends b (defineQueryParameters b) := by
  rw [defineQueryParameters]
  split
  · exact errsExtends_refl b
  · exact ⟨[], (List.append_nil _).symm⟩

theorem defineCookieParameters_errsExt (b : builder) :
    errsExtends b (defineCookieParameters b) := by
  rw [defineCookieParameters]
  split
  · exact errsExtends_refl b
  · exact ⟨[], (List.append_nil _).symm⟩

theorem defineBodyParameters_errsExt (b : builder) :
    errsExtends b (defineBodyParameters b) := by
  rw [defineBodyParameters]
  split
  · exact errsExtends_refl b
  · split
    · exact ⟨_, rfl⟩
    · split
      · exact ⟨_, rfl⟩
      · split
        · exact ⟨[], (List.append_nil _).symm⟩
        · exact errsExtends_refl b

theorem defineResponseHeaderParameters_errsExt (b : builder) :
    errsExtends b (defineResponseHeaderParameters b) := by
  rw [defineResponseHeaderParameters]
  split
  · exact errsExtends_refl b
  · split
    · exact ⟨_, rfl⟩
    · exact ⟨[], (List.append_nil _).symm⟩

theorem defineResponseStatusCodeParameters_errsExt (b : builder) :
    errsExtends b (defineResponseStatusCodeParameters b) := by
  rw [defineResponseStatusCodeParameters]
  split
  · exact errsExtends_refl b
  · split
    · exact ⟨_, rfl⟩
    · exact ⟨[], (List.append_nil _).symm⟩

theorem defineResponseCookieParameters_errsExt (b : builder) :
    errsExtends b (defineResponseCookieParameters b) := by
  rw [defineResponseCookieParameters]
  split
  · exact errsExtends_refl b
  · split
    · exact ⟨_, rfl⟩
    · exact ⟨[], (List.append_nil _).symm⟩

theorem defineResponseErrorParameters_errsExt (b : builder) :
    errsExtends b (defineResponseErrorParameters b) := by
  rw [defineResponseErrorParameters]
  split
  · exact errsExtends_refl b
  · split
    · exact ⟨_, rfl⟩
    · exact ⟨[], (List.append_nil _).symm⟩

theorem defineProviders_errsExt (uc : UserConverters) (b : builder) :
    errsExtends b (defineProviders uc b) := by
  rw [defineProviders]
  exact errsExtends_trans (definePathParameters_errsExt uc b)
    (errsExtends_trans (defineHeaderParameters_errsExt _)
      (errsExtends_trans (defineQueryParameters_errsExt _)
        (errsExtends_trans (defineCookieParameters_errsExt _)
          (errsExtends_trans (defineBodyParameters_errsExt _)
            (errsExtends_trans (defineResponseHeaderParameters_errsExt _)
              (errsExtends_trans (defineResponseStatusCodeParameters_errsExt _)
                (errsExtends_trans (defineResponseCookieParameters_errsExt _)
                  (defineResponseErrorParameters_errsExt _))))))))

/-- `Build` with classification phases succeeding and a non-empty error
list yields the poisoned processor with stub closures. -/
theorem Build_poisoned (uc : UserConverters) (b : builder) (f : GoFunc)
    (b2 b3 : builder)
    (hsv : b.serviceValue = some f)
    (h2 : groupRequestOtherParameters (groupRequestPathParameters b f) f
      = Except.ok b2)
    (h3 : groupResponseParameters b2 f = Except.ok b3)
    (hne : 0 < (defineProviders uc b3).errors.data.length) :
    Build uc b = Except.ok
      { errors := some (defineProviders uc b3).errors.data
        processRequest := fun _ => Except.ok ([], none)
        produceResponse := fun _ _ w _ => Except.ok (w, none) } := by
  simp only [Build, hsv, h2, h3, hne, if_true]

theorem groupRequestPathParameters_pathParamsAmount (b : builder) (f : GoFunc) :
    (groupRequestPathParameters b f).pathParamsAmount = b.pathParamsAmount := by
  rw [groupRequestPathParameters]
  split <;> rfl

theorem groupRequestOtherParameters_eq (b : builder) (f : GoFunc)
    (r : Option PMap × List Nat × List GoErr)
    (h : otherParamsLoop b.parametersBy b.orderOfOtherParameters.data
        b.errors.data (f.ins.drop b.pathParamsAmount) = Except.ok r) :
    groupRequestOtherParameters b f = Except.ok { b with
      parametersBy := r.1
      orderOfOtherParameters := { b.orderOfOtherParameters with data := r.2.1 }
      errors := { b.errors with data := r.2.2 } } := by
  rw [groupRequestOtherParameters, h]

theorem groupResponseParameters_eq (b : builder) (f : GoFunc)
    (r : Option PMap × List Nat × List GoErr)
    (h : responseParamsLoop b.parametersBy b.orderOfResponseParameters.data
        b.errors.data f.outs = Except.ok r) :
    groupResponseParameters b f = Except.ok { b with
      parametersBy := r.1
      orderOfResponseParameters := { b.orderOfResponseParameters with data := r.2.1 }
      errors := { b.errors with data := r.2.2 } } := by
  rw [groupResponseParameters, h]

/-- C7: a handler with two input parameters classified into the same
non-path group makes `Build` record an `InvalidMapping` error: the
resulting processor is poisoned and every `Handle` call fails with a
build error instead of serving the request. -/
theorem c7_duplicate_nonpath_group_poisons
    (uc : UserConverters) (b : builder) (f : GoFunc)
    (hsv : b.serviceValue = some f)
    (i j : Nat)
    (hi : i < (f.ins.drop b.pathParamsAmount).length)
    (hj : j < (f.ins.drop b.pathParamsAmount).length)
    (hlt : i < j)
    (hgeq : (otherGroupAndMsg (f.ins.drop b.pathParamsAmount)[i]).1
          = (otherGroupAndMsg (f.ins.drop b.pathParamsAmount)[j]).1) :
    ∃ ep es, Build uc b = Except.ok ep ∧ ep.errors = some es ∧
      (∃ m2 ∈ es, m2.isInvalidMappingErr = true) ∧
      ∀ w r, ∃ e, EndpointProcessor.Handle ep w r = Except.ok (w, some e) := by
  have hge : b.pathParamsAmount ≤ f.ins.length := by
    have hlen := List.length_drop b.pathParamsAmount f.ins
    omega
  have hpp := groupRequestPathParameters_pathParamsAmount b f
  obtain ⟨hsome, _⟩ := pathPhase_parametersBy b f hge
  obtain ⟨pb2, ord2, m, hloop, hm, hpb2⟩ :=
    otherParamsLoop_dup (f.ins.drop b.pathParamsAmount)
      (groupRequestPathParameters b f).parametersBy
      (groupRequestPathParameters b f).orderOfOtherParameters.data
      (groupRequestPathParameters b f).errors.data
      hsome (Or.inr ⟨i, j, hi, hj, hlt, hgeq⟩)
  rw [← hpp] at hloop
  obtain ⟨bb2, h2, hbpb, hberr⟩ :
      ∃ bb2, groupRequestOtherParameters (groupRequestPathParameters b f) f
          = Except.ok bb2
        ∧ bb2.parametersBy = pb2
        ∧ bb2.errors.data = (groupRequestPathParameters b f).errors.data ++ [m] :=
    ⟨_, groupRequestOtherParameters_eq _ f _ hloop, rfl, rfl⟩
  obtain ⟨pb3, ord3, extra, hrloop, _⟩ :=
    responseParamsLoop_ok f.outs bb2.parametersBy bb2.orderOfResponseParameters.data
      bb2.errors.data (by rw [hbpb]; exact hpb2)
  obtain ⟨bb3, h3, hb3err⟩ :
      ∃ bb3, groupResponseParameters bb2 f = Except.ok bb3
        ∧ bb3.errors.data = bb2.errors.data ++ extra :=
    ⟨_, groupResponseParameters_eq bb2 f _ hrloop, rfl⟩
  obtain ⟨extra2, hext⟩ := defineProviders_errsExt uc bb3
  have hne : 0 < (defineProviders uc bb3).errors.data.length := by
    rw [hext, hb3err, hberr]
    simp only [List.length_append, List.length_cons, List.length_nil]
    omega
  have hB := Build_poisoned uc b f bb2 bb3 hsv h2 h3 hne
  cases hcase : (defineProviders uc bb3).errors.data with
  | nil =>
      rw [hcase] at hne
      simp at hne
  | cons e rest2 =>
      rw [hcase] at hB
      refine ⟨_, e :: rest2, hB, rfl, ⟨m, ?_, hm⟩, ?_⟩
      · rw [← hcase, hext, hb3err, hberr]
        simp
      · intro w r
        exact ⟨e, by rw [EndpointProcessor.Handle]⟩

/-- Handler with two URL-query-map inputs, for the C7 witness. -/
def hdlC7 : GoFunc :=
  { ins := [urlQueryType, urlQueryType], outs := [], impl := fun _ => [] }

/-- Concrete builder whose handler duplicates the query group. -/
def bldC7 : builder := ((GET ("/q".toList)).Handler (ServiceArg.fn hdlC7) 3).1

theorem c7_witness :
    ∃ ep es, Build ucDefault bldC7 = Except.ok ep ∧ ep.errors = some es ∧
      (∃ m2 ∈ es, m2.isInvalidMappingErr = true) ∧
      ∀ w r, ∃ e, EndpointProcessor.Handle ep w r = Except.ok (w, some e) :=
  c7_duplicate_nonpath_group_poisons ucDefault bldC7 hdlC7 (by rfl) 0 1
    (by decide) (by decide) (by decide) (by decide)

theorem pathParamTypeCheck_unsupported (t : GoType) (e : GoErr)
    (h : pathParamTypeCheck t = some e) : e.isUnsupportedTypeErr = true := by
  rw [pathParamTypeCheck] at h
  split at h
  all_goals try split at h
  all_goals (cases h; try exact isUnsupportedType_wrap _)

theorem pathParamsScan_unsupported :
    ∀ ts : List GoType, (∃ t ∈ ts, (pathParamTypeCheck t).isSome = true) →
      ∃ e, (pathParamsScan ts).2 = some e ∧ e.isUnsupportedTypeErr = true := by
  intro ts
  induction ts with
  | nil =>
      intro ⟨t, ht, _⟩
      cases ht
  | cons t rest ih =>
      intro ⟨t2, ht2, hbad⟩
      rw [pathParamsScan]
      cases hc : pathParamTypeCheck t with
      | some e => exact ⟨e, rfl, pathParamTypeCheck_unsupported t e hc⟩
      | none =>
          rcases List.mem_cons.mp ht2 with rfl | hmem
          · rw [hc] at hbad
            cases hbad
          · exact ih ⟨t2, hmem, hbad⟩

theorem groupRequestPathParameters_badScan (b : builder) (f : GoFunc)
    (hge : b.pathParamsAmount ≤ f.ins.length) (e : GoErr)
    (hscan : (pathParamsScan (f.ins.take b.pathParamsAmount)).2 = some e) :
    (groupRequestPathParameters b f).errors.data = b.errors.data ++ [e] := by
  rw [groupRequestPathParameters, if_neg (by omega)]
  show (match (pathParamsScan (f.ins.take b.pathParamsAmount)).2 with
      | some e2 => { b.errors with data := b.errors.data ++ [e2] }
      | none => b.errors).data = b.errors.data ++ [e]
  rw [hscan]

/-- With pairwise-distinct groups and initially empty groups, the
non-path input loop succeeds without recording any error and only
touches the groups of its inputs. -/
theorem otherParamsLoop_clean :
    ∀ (ts : List GoType) (pb : Option PMap) (ord : List Nat) (errs : List GoErr),
      pb.isSome = true →
      (∀ t ∈ ts, pmapGet pb (otherGroupAndMsg t).1 = []) →
      List.Pairwise (fun a c => (otherGroupAndMsg a).1 ≠ (otherGroupAndMsg c).1) ts →
      ∃ pb2 ord2,
        otherParamsLoop pb ord errs ts = Except.ok (pb2, ord2, errs) ∧
        pb2.isSome = true ∧
        ∀ g, (∀ t ∈ ts, g ≠ (otherGroupAndMsg t).1) → pmapGet pb2 g = pmapGet pb g := by
  intro ts
  induction ts with
  | nil =>
      intro pb ord errs hsome _ _
      exact ⟨pb, ord, rfl, hsome, fun g _ => rfl⟩
  | cons t rest ih =>
      intro pb ord errs hsome hempty hpw
      rw [otherParamsLoop]
      have hemp_t : pmapGet pb (otherGroupAndMsg t).1 = [] := hempty t (by simp)
      have hnd : ¬ 0 < (pmapGet pb (otherGroupAndMsg t).1).length := by
        rw [hemp_t]
        simp
      rw [if_neg hnd]
      obtain ⟨mm, rfl⟩ := Option.isSome_iff_exists.mp hsome
      have happ := pmapGet_pmapAppend mm (otherGroupAndMsg t).1 t _
        (pmapAppend_some mm (otherGroupAndMsg t).1 t)
      obtain ⟨pb2, ord2, hrec, hsome2, hpres⟩ :=
        ih (some { mm with entries := alSet mm.entries (otherGroupAndMsg t).1 (((mm.entries.lookup (otherGroupAndMsg t).1).getD []) ++ [t]) })
          (ord ++ [(otherGroupAndMsg t).1]) errs rfl
          (fun t2 ht2 => by
            rw [happ]
            have hne : ¬ (otherGroupAndMsg t2).1 = (otherGroupAndMsg t).1 :=
              fun h => (List.rel_of_pairwise_cons hpw ht2) h.symm
            rw [if_neg hne]
            exact hempty t2 (by simp [ht2]))
          (List.Pairwise.of_cons hpw)
      rw [pmapAppend_some]
      refine ⟨pb2, ord2, hrec, hsome2, ?_⟩
      intro g hg
      rw [hpres g (fun t2 ht2 => hg t2 (by simp [ht2])), happ,
        if_neg (hg t (by simp))]

/-- Count of `int` status outputs among response types. -/
def statusCount (ts : List GoType) : Nat :=
  (ts.filter (fun t => t == httpStatusType)).length

/-- Count of error-implementing outputs that reach the error branch of
the output-classification loop. -/
def errorOutCount (ts : List GoType) : Nat :=
  (ts.filter (fun t => !(t == headersType) && !(t == cookiesType)
    && !(t == httpStatusType) && t.implsError)).length

/-- The duplicate-status classification error recorded by the loop. -/
def dupStatusErr : GoErr :=
  InvalidMappingError (GoErr.newErr "unable to map multiple response status codes")

/-- A second status-code output makes the output-classification loop
record the duplicate-status error while still returning `ok` with all
previously accumulated errors preserved. -/
theorem responseParamsLoop_dupStatus :
    ∀ (ts : List GoType) (pb : Option PMap) (ord : List Nat) (errs : List GoErr),
      pb.isSome = true →
      2 ≤ (pmapGet pb responseStatusCodeParametersGroup).length + statusCount ts →
      (pmapGet pb responseStatusCodeParametersGroup).length ≤ 1 →
      (pmapGet pb responseErrorParametersGroup).length + errorOutCount ts ≤ 1 →
      ∃ pb2 ord2 extra,
        responseParamsLoop pb ord errs ts = Except.ok (pb2, ord2, errs ++ extra) ∧
        dupStatusErr ∈ extra := by
  intro ts
  induction ts with
  | nil =>
      intro pb ord errs _ h2 hle1 _
      have h0 : statusCount ([] : List GoType) = 0 := rfl
      omega
  | cons t rest ih =>
      intro pb ord errs hsome h2 hle1 herr
      obtain ⟨mm, rfl⟩ := Option.isSome_iff_exists.mp hsome
      rw [responseParamsLoop]
      by_cases hH : t = headersType
      · subst hH
        rw [if_pos rfl, pmapAppend_some]
        have happ := pmapGet_pmapAppend mm responseHeaderParametersGroup headersType _ (pmapAppend_some mm responseHeaderParametersGroup headersType)
        have h2b : 2 ≤ (pmapGet (some mm) responseStatusCodeParametersGroup).length + statusCount rest := h2
        have herrb : (pmapGet (some mm) responseErrorParametersGroup).length + errorOutCount rest ≤ 1 := herr
        exact ih (some { mm with entries := alSet mm.entries responseHeaderParametersGroup (((mm.entries.lookup responseHeaderParametersGroup).getD []) ++ [headersType]) }) (ord ++ [responseHeaderParametersGroup]) errs rfl (by rw [happ, if_neg (by decide)]; exact h2b) (by rw [happ, if_neg (by decide)]; exact hle1) (by rw [happ, if_neg (by decide)]; exact herrb)
      · rw [if_neg hH]
        by_cases hC : t = cookiesType
        · subst hC
          rw [if_pos rfl, pmapAppend_some]
          have happ := pmapGet_pmapAppend mm responseCookieParametersGroup cookiesType _ (pmapAppend_some mm responseCookieParametersGroup cookiesType)
          have h2b : 2 ≤ (pmapGet (some mm) responseStatusCodeParametersGroup).length + statusCount rest := h2
          have herrb : (pmapGet (some mm) responseErrorParametersGroup).length + errorOutCount rest ≤ 1 := herr
          exact ih (some { mm with entries := alSet mm.entries responseCookieParametersGroup (((mm.entries.lookup responseCookieParametersGroup).getD []) ++ [cookiesType]) }) (ord ++ [responseCookieParametersGroup]) errs rfl (by rw [happ, if_neg (by decide)]; exact h2b) (by rw [happ, if_neg (by decide)]; exact hle1) (by rw [happ, if_neg (by decide)]; exact herrb)
        · rw [if_neg hC]
          by_cases hS : t = httpStatusType
          · subst hS
            rw [if_pos rfl]
            by_cases hSd : 0 < (pmapGet (some mm) responseStatusCodeParametersGroup).length
            · rw [if_pos hSd]
              exact ⟨some mm, ord, [dupStatusErr], rfl, by simp⟩
            · rw [if_neg hSd, pmapAppend_some]
              have happ := pmapGet_pmapAppend mm responseStatusCodeParametersGroup httpStatusType _ (pmapAppend_some mm responseStatusCodeParametersGroup httpStatusType)
              have h2b : 2 ≤ (pmapGet (some mm) responseStatusCodeParametersGroup).length + (statusCount rest + 1) := h2
              have herrb : (pmapGet (some mm) responseErrorParametersGroup).length + errorOutCount rest ≤ 1 := herr
              exact ih (some { mm with entries := alSet mm.entries responseStatusCodeParametersGroup (((mm.entries.lookup responseStatusCodeParametersGroup).getD []) ++ [httpStatusType]) }) (ord ++ [responseStatusCodeParametersGroup]) errs rfl (by rw [happ, if_pos rfl]; simp only [List.length_append, List.length_cons, List.length_nil]; omega) (by rw [happ, if_pos rfl]; simp only [List.length_append, List.length_cons, List.length_nil]; omega) (by rw [happ, if_neg (by decide)]; exact herrb)
          · rw [if_neg hS]
            have hbeqS : (t == httpStatusType) = false := beq_eq_false_iff_ne.mpr hS
            have hbeqH : (t == headersType) = false := beq_eq_false_iff_ne.mpr hH
            have hbeqC : (t == cookiesType) = false := beq_eq_false_iff_ne.mpr hC
            have hsc : statusCount (t :: rest) = statusCount rest := by
              simp [statusCount, List.filter_cons, hbeqS]
            rw [hsc] at h2
            by_cases hE : t.implsError = true
            · rw [if_pos hE]
              have heoc : errorOutCount (t :: rest) = errorOutCount rest + 1 := by
                simp [errorOutCount, List.filter_cons, hbeqS, hbeqH, hbeqC, hE]
              rw [heoc] at herr
              by_cases hEd : 0 < (pmapGet (some mm) responseErrorParametersGroup).length
              · exact absurd hEd (by omega)
              · rw [if_neg hEd, pmapAppend_some]
                have happ := pmapGet_pmapAppend mm responseErrorParametersGroup t _ (pmapAppend_some mm responseErrorParametersGroup t)
                exact ih (some { mm with entries := alSet mm.entries responseErrorParametersGroup (((mm.entries.lookup responseErrorParametersGroup).getD []) ++ [t]) }) (ord ++ [responseErrorParametersGroup]) errs rfl (by rw [happ, if_neg (by decide)]; exact h2) (by rw [happ, if_neg (by decide)]; exact hle1) (by rw [happ, if_pos rfl]; simp only [List.length_append, List.length_cons, List.length_nil]; omega)
            · rw [if_neg hE]
              have himpf : t.implsError = false := by
                revert hE
                cases t.implsError <;> simp
              have heoc : errorOutCount (t :: rest) = errorOutCount rest := by
                simp [errorOutCount, List.filter_cons, himpf]
              rw [heoc] at herr
              rw [pmapAppend_some]
              have happ := pmapGet_pmapAppend mm responseBodyParametersGroup t _ (pmapAppend_some mm responseBodyParametersGroup t)
              by_cases hBd : 0 < (pmapGet (some mm) responseBodyParametersGroup).length
              · rw [if_pos hBd]
                obtain ⟨pb2, ord2, extra, hrec, hmem⟩ := ih (some { mm with entries := alSet mm.entries responseBodyParametersGroup (((mm.entries.lookup responseBodyParametersGroup).getD []) ++ [t]) }) (ord ++ [responseBodyParametersGroup]) (errs ++ [InvalidMappingError (GoErr.newErr "unable to map body to multiple response entities")]) rfl (by rw [happ, if_neg (by decide)]; exact h2) (by rw [happ, if_neg (by decide)]; exact hle1) (by rw [happ, if_neg (by decide)]; exact herr)
                refine ⟨pb2, ord2, InvalidMappingError (GoErr.newErr "unable to map body to multiple response entities") :: extra, ?_, List.mem_cons_of_mem _ hmem⟩
                show responseParamsLoop (some { mm with entries := alSet mm.entries responseBodyParametersGroup (((mm.entries.lookup responseBodyParametersGroup).getD []) ++ [t]) }) (ord ++ [responseBodyParametersGroup]) (errs ++ [InvalidMappingError (GoErr.newErr "unable to map body to multiple response entities")]) rest = Except.ok (pb2, ord2, errs ++ (InvalidMappingError (GoErr.newErr "unable to map body to multiple response entities") :: extra))
                rw [hrec, List.append_assoc]
                rfl
              · rw [if_neg hBd]
                exact ih (some { mm with entries := alSet mm.entries responseBodyParametersGroup (((mm.entries.lookup responseBodyParametersGroup).getD []) ++ [t]) }) (ord ++ [responseBodyParametersGroup]) errs rfl (by rw [happ, if_neg (by decide)]; exact h2) (by rw [happ, if_neg (by decide)]; exact hle1) (by rw [happ, if_neg (by decide)]; exact herr)

/-- C8: classification errors accumulate across phases instead of
stopping at the first one: a handler with an unsupported path-parameter
type and a duplicate response status code yields a processor whose error
list carries both the `UnsupportedType` error and the duplicate-status
`InvalidMapping` error. -/
theorem c8_errors_accumulate_across_phases
    (uc : UserConverters) (b : builder) (f : GoFunc)
    (hsv : b.serviceValue = some f)
    (hge : b.pathParamsAmount ≤ f.ins.length)
    (hbad : ∃ t ∈ f.ins.take b.pathParamsAmount, (pathParamTypeCheck t).isSome = true)
    (hclean : List.Pairwise (fun a c => (otherGroupAndMsg a).1 ≠ (otherGroupAndMsg c).1)
      (f.ins.drop b.pathParamsAmount))
    (hstat : 2 ≤ statusCount f.outs)
    (herrc : errorOutCount f.outs ≤ 1) :
    ∃ ep es, Build uc b = Except.ok ep ∧ ep.errors = some es ∧
      (∃ e1 ∈ es, e1.isUnsupportedTypeErr = true) ∧
      dupStatusErr ∈ es ∧ dupStatusErr.isInvalidMappingErr = true := by
  obtain ⟨e, hscan, hUns⟩ := pathParamsScan_unsupported (f.ins.take b.pathParamsAmount) hbad
  have herr1 := groupRequestPathParameters_badScan b f hge e hscan
  obtain ⟨hsome1, hempty1⟩ := pathPhase_parametersBy b f hge
  have hpp := groupRequestPathParameters_pathParamsAmount b f
  obtain ⟨pbO, ordO, hloopO, hsomeO, hpresO⟩ :=
    otherParamsLoop_clean (f.ins.drop b.pathParamsAmount)
      (groupRequestPathParameters b f).parametersBy
      (groupRequestPathParameters b f).orderOfOtherParameters.data
      (groupRequestPathParameters b f).errors.data
      hsome1
      (fun t _ => hempty1 _ (by rcases otherGroup_mem t with h | h | h | h <;> rw [h] <;> decide))
      hclean
  rw [← hpp] at hloopO
  obtain ⟨bb2, h2, hbpb, hberr⟩ :
      ∃ bb2, groupRequestOtherParameters (groupRequestPathParameters b f) f
          = Except.ok bb2
        ∧ bb2.parametersBy = pbO
        ∧ bb2.errors.data = (groupRequestPathParameters b f).errors.data :=
    ⟨_, groupRequestOtherParameters_eq _ f _ hloopO, rfl, rfl⟩
  have hgneS : ∀ t ∈ f.ins.drop b.pathParamsAmount,
      responseStatusCodeParametersGroup ≠ (otherGroupAndMsg t).1 := by
    intro t _
    rcases otherGroup_mem t with h | h | h | h <;> rw [h] <;> decide
  have hgneE : ∀ t ∈ f.ins.drop b.pathParamsAmount,
      responseErrorParametersGroup ≠ (otherGroupAndMsg t).1 := by
    intro t _
    rcases otherGroup_mem t with h | h | h | h <;> rw [h] <;> decide
  have hstG : pmapGet bb2.parametersBy responseStatusCodeParametersGroup = [] := by
    rw [hbpb, hpresO _ hgneS]
    exact hempty1 _ (by decide)
  have herG : pmapGet bb2.parametersBy responseErrorParametersGroup = [] := by
    rw [hbpb, hpresO _ hgneE]
    exact hempty1 _ (by decide)
  obtain ⟨pbR, ordR, extra, hloopR, hmemR⟩ :=
    responseParamsLoop_dupStatus f.outs bb2.parametersBy
      bb2.orderOfResponseParameters.data bb2.errors.data
      (by rw [hbpb]; exact hsomeO)
      (by rw [hstG]; simpa using hstat)
      (by rw [hstG]; simp)
      (by rw [herG]; simpa using herrc)
  obtain ⟨bb3, h3, hb3err⟩ :
      ∃ bb3, groupResponseParameters bb2 f = Except.ok bb3
        ∧ bb3.errors.data = bb2.errors.data ++ extra :=
    ⟨_, groupResponseParameters_eq bb2 f _ hloopR, rfl⟩
  obtain ⟨extra2, hext⟩ := defineProviders_errsExt uc bb3
  have hne : 0 < (defineProviders uc bb3).errors.data.length := by
    rw [hext, hb3err, hberr, herr1]
    simp only [List.length_append, List.length_cons, List.length_nil]
    omega
  have hB := Build_poisoned uc b f bb2 bb3 hsv h2 h3 hne
  refine ⟨_, (defineProviders uc bb3).errors.data, hB, rfl, ⟨e, ?_, hUns⟩, ?_, by decide⟩
  · rw [hext, hb3err, hberr, herr1]
    simp
  · rw [hext, hb3err]
    exact List.mem_append.mpr (Or.inl (List.mem_append.mpr (Or.inr hmemR)))

/-- A struct-kind path parameter, unsupported by the converter switch. -/
def structPathType : GoType := { name := "main.Payload", kind := GoKind.struct }

/-- Handler with one unsupported path input and two status outputs. -/
def hdlC8 : GoFunc :=
  { ins := [structPathType], outs := [httpStatusType, httpStatusType], impl := fun _ => [] }

/-- Concrete builder for the C8 witness: one path slot, bad path type,
duplicate status outputs. -/
def bldC8 : builder := ((GET ("/x/:id".toList)).Handler (ServiceArg.fn hdlC8) 3).1

theorem c8_witness :
    ∃ ep es, Build ucDefault bldC8 = Except.ok ep ∧ ep.errors = some es ∧
      (∃ e1 ∈ es, e1.isUnsupportedTypeErr = true) ∧
      dupStatusErr ∈ es ∧ dupStatusErr.isInvalidMappingErr = true :=
  c8_errors_accumulate_across_phases ucDefault bldC8 hdlC8 (by rfl)
    (by decide) (by decide) (by decide) (by decide) (by decide)

/-- Identity-free observation of a builder: every field, with the
classification map, order vectors and error list reduced to their
contents.  Two builders with equal observations behave identically under
every later call, whatever their backing-store identities. -/
structure BuilderObs where
  method : Str
  pathValues : Str → Except GoPanic (List Str)
  pathParamsAmount : Nat
  decoder : Option DecoderFn
  contentTypeProvider : Option Str
  encoder : Option EncoderFn
  errorsData : List GoErr
  parametersByData : Option (List (Nat × List GoType))
  serviceValue : Option GoFunc
  orderOfOtherData : List Nat
  pathParameters : Option (List Str → List GoValue × Option GoErr)
  headerParameters : Option (HeaderAList → GoValue × Option GoErr)
  queryParameters : Option (List (Str × List Str) → GoValue × Option GoErr)
  cookieParameters : Option (List Cookie → GoValue × Option GoErr)
  bodyParameters : Option (Option (List Nat) → GoValue × Option GoErr)
  errorMapper : Option ErrorMapperFn
  orderOfResponseData : List Nat
  responseHeaderParameters : Option (GoValue → Except GoPanic (Option HeaderAList))
  responseStatusCodeParameters : Option (GoValue → Except GoPanic Int)
  responseCookieParameters : Option (GoValue → Except GoPanic (List Cookie))
  responseErrorParameters : Option ErrorMapperFn

/-- The observation of a builder. -/
def obs (b : builder) : BuilderObs :=
  { method := b.method
    pathValues := b.pathValues
    pathParamsAmount := b.pathParamsAmount
    decoder := b.decoder
    contentTypeProvider := b.contentTypeProvider
    encoder := b.encoder
    errorsData := b.errors.data
    parametersByData := b.parametersBy.map (fun m => m.entries)
    serviceValue := b.serviceValue
    orderOfOtherData := b.orderOfOtherParameters.data
    pathParameters := b.pathParameters
    headerParameters := b.headerParameters
    queryParameters := b.queryParameters
    cookieParameters := b.cookieParameters
    bodyParameters := b.bodyParameters
    errorMapper := b.errorMapper
    orderOfResponseData := b.orderOfResponseParameters.data
    responseHeaderParameters := b.responseHeaderParameters
    responseStatusCodeParameters := b.responseStatusCodeParameters
    responseCookieParameters := b.responseCookieParameters
    responseErrorParameters := b.responseErrorParameters }

/-- The backing-store identities held by a builder. -/
def builderIds (b : builder) : List Nat :=
  (match b.parametersBy with
   | some m => [m.mid]
   | none => []) ++
    [b.orderOfOtherParameters.sid, b.orderOfResponseParameters.sid, b.errors.sid]

/-- Deep-copy separation: every non-empty store of `b2` has an identity
foreign to `b`, so mutations through `b2` cannot reach the stores of
`b`. -/
def freshStores (b b2 : builder) : Prop :=
  (∀ m2, b2.parametersBy = some m2 → 0 < m2.entries.length →
    m2.mid ∉ builderIds b) ∧
  (0 < b2.orderOfOtherParameters.data.length →
    b2.orderOfOtherParameters.sid ∉ builderIds b) ∧
  (0 < b2.orderOfResponseParameters.data.length →
    b2.orderOfResponseParameters.sid ∉ builderIds b) ∧
  (0 < b2.errors.data.length → b2.errors.sid ∉ builderIds b)

theorem clone_spec (b : builder) (alloc : Nat) :
    obs (b.clone alloc).1 = obs b ∧
    (∀ m2, (b.clone alloc).1.parametersBy = some m2 →
      0 < m2.entries.length → alloc ≤ m2.mid) ∧
    (0 < (b.clone alloc).1.orderOfOtherParameters.data.length →
      alloc ≤ (b.clone alloc).1.orderOfOtherParameters.sid) ∧
    (0 < (b.clone alloc).1.orderOfResponseParameters.data.length →
      alloc ≤ (b.clone alloc).1.orderOfResponseParameters.sid) ∧
    (0 < (b.clone alloc).1.errors.data.length →
      alloc ≤ (b.clone alloc).1.errors.sid) := by
  rcases hpb : b.parametersBy with _ | m
  · by_cases h2 : 0 < b.orderOfOtherParameters.data.length <;>
    by_cases h3 : 0 < b.orderOfResponseParameters.data.length <;>
    by_cases h4 : 0 < b.errors.data.length <;>
    refine ⟨?_, ?_, ?_, ?_, ?_⟩ <;>
    simp [builder.clone, obs, hpb, h2, h3, h4]
    all_goals omega
  · by_cases h1 : 0 < m.entries.length <;>
    by_cases h2 : 0 < b.orderOfOtherParameters.data.length <;>
    by_cases h3 : 0 < b.orderOfResponseParameters.data.length <;>
    by_cases h4 : 0 < b.errors.data.length <;>
    refine ⟨?_, ?_, ?_, ?_, ?_⟩ <;>
    simp [builder.clone, obs, hpb, h1, h2, h3, h4]
    all_goals omega

/-- C9: every fluent configuration call returns a builder that holds the
requested mutation on top of an otherwise identical observation (deep
copies of the classification map, order vectors and error list keep the
same contents), and every non-empty copied store carries a fresh
identity, so the original builder is observably unchanged by anything
done through the returned one. -/
theorem c9_fluent_calls_clone_deeply
    (b : builder) (alloc : Nat)
    (h : ∀ id2 ∈ builderIds b, id2 < alloc)
    (d : DecoderFn) (enc : EncoderFn) (ct : Str) (em : ErrorMapperFn)
    (f : GoFunc) (ic : InterceptorFn) :
    (obs (b.Decoder d alloc).1 = { obs b with decoder := some d }
      ∧ freshStores b (b.Decoder d alloc).1) ∧
    (obs (b.Encoder enc alloc).1 = { obs b with encoder := some enc }
      ∧ freshStores b (b.Encoder enc alloc).1) ∧
    (obs (b.ResponseContentType ct alloc).1
        = { obs b with contentTypeProvider := some ct }
      ∧ freshStores b (b.ResponseContentType ct alloc).1) ∧
    (obs (b.ErrorMapping em alloc).1 = { obs b with errorMapper := some em }
      ∧ freshStores b (b.ErrorMapping em alloc).1) ∧
    (obs (b.Handler (ServiceArg.fn f) alloc).1
        = { obs b with serviceValue := some f }
      ∧ freshStores b (b.Handler (ServiceArg.fn f) alloc).1) ∧
    (obs (b.Before ic alloc).1 = obs b ∧ freshStores b (b.Before ic alloc).1) ∧
    (obs (b.After ic alloc).1 = obs b ∧ freshStores b (b.After ic alloc).1) := by
  obtain ⟨hobs, hpm, hoo, hop, herr⟩ := clone_spec b alloc
  have hfresh : freshStores b (b.clone alloc).1 := by
    refine ⟨?_, ?_, ?_, ?_⟩
    · intro m2 hm2 hlen hmem
      exact absurd (h _ hmem) (not_lt.mpr (hpm m2 hm2 hlen))
    · intro hlen hmem
      exact absurd (h _ hmem) (not_lt.mpr (hoo hlen))
    · intro hlen hmem
      exact absurd (h _ hmem) (not_lt.mpr (hop hlen))
    · intro hlen hmem
      exact absurd (h _ hmem) (not_lt.mpr (herr hlen))
  refine ⟨⟨?_, hfresh⟩, ⟨?_, hfresh⟩, ⟨?_, hfresh⟩, ⟨?_, hfresh⟩, ⟨?_, hfresh⟩,
    ⟨hobs, hfresh⟩, ⟨hobs, hfresh⟩⟩
  · show obs { (b.clone alloc).1 with decoder := some d }
        = { obs b with decoder := some d }
    rw [← hobs]
    rfl
  · show obs { (b.clone alloc).1 with encoder := some enc }
        = { obs b with encoder := some enc }
    rw [← hobs]
    rfl
  · show obs { (b.clone alloc).1 with contentTypeProvider := some ct }
        = { obs b with contentTypeProvider := some ct }
    rw [← hobs]
    rfl
  · show obs { (b.clone alloc).1 with errorMapper := some em }
        = { obs b with errorMapper := some em }
    rw [← hobs]
    rfl
  · show obs { (b.clone alloc).1 with serviceValue := some f }
        = { obs b with serviceValue := some f }
    rw [← hobs]
    rfl

/-- Concrete decoder for the C9 witness. -/
def dC9 : DecoderFn := fun _ _ => (GoValue.str [], none)

/-- Concrete encoder for the C9 witness. -/
def encC9 : EncoderFn := fun _ => ([], none)

/-- Concrete error mapper for the C9 witness. -/
def emC9 : ErrorMapperFn := DefaultErrorMapper

/-- Concrete handler function for the C9 witness. -/
def fC9 : GoFunc := { ins := [], outs := [], impl := fun _ => [] }

/-- Concrete interceptor for the C9 witness. -/
def icC9 : InterceptorFn := fun _ _ => true

/-- Concrete content type for the C9 witness. -/
def ctC9 : Str := "application/json".toList

/-- Concrete builder for the C9 witness. -/
def bldC9 : builder := GET ("/p".toList)

theorem c9_witness :
    (obs (bldC9.Decoder dC9 3).1 = { obs bldC9 with decoder := some dC9 }
      ∧ freshStores bldC9 (bldC9.Decoder dC9 3).1) ∧
    (obs (bldC9.Encoder encC9 3).1 = { obs bldC9 with encoder := some encC9 }
      ∧ freshStores bldC9 (bldC9.Encoder encC9 3).1) ∧
    (obs (bldC9.ResponseContentType ctC9 3).1
        = { obs bldC9 with contentTypeProvider := some ctC9 }
      ∧ freshStores bldC9 (bldC9.ResponseContentType ctC9 3).1) ∧
    (obs (bldC9.ErrorMapping emC9 3).1 = { obs bldC9 with errorMapper := some emC9 }
      ∧ freshStores bldC9 (bldC9.ErrorMapping emC9 3).1) ∧
    (obs (bldC9.Handler (ServiceArg.fn fC9) 3).1
        = { obs bldC9 with serviceValue := some fC9 }
      ∧ freshStores bldC9 (bldC9.Handler (ServiceArg.fn fC9) 3).1) ∧
    (obs (bldC9.Before icC9 3).1 = obs bldC9
      ∧ freshStores bldC9 (bldC9.Before icC9 3).1) ∧
    (obs (bldC9.After icC9 3).1 = obs bldC9
      ∧ freshStores bldC9 (bldC9.After icC9 3).1) :=
  c9_fluent_calls_clone_deeply bldC9 3 (by decide) dC9 encC9 ctC9 emC9 fC9 icC9
